import Mathlib

/-!
# Verification of the ProjectGolem scripting-language core

This file gives a shallow embedding, in Lean 4, of the core of the
ProjectGolem repository:

* the lexer (`golemjs/internal/lexer`, files `token.go` / `lexer.go`),
* the tree-walking evaluator with arrays, hashes and strings
  (`golemjs/internal/interpreter/interpreter.go`), embedded in
  namespace `Golem`,
* the smaller tree-walking evaluator (`internal/interpreter/interpreter.go`),
  embedded in namespace `MInterp`.

Modelling conventions:

* Go interface values of type `Object` may be `nil`; they are modelled as
  `Option Obj`, with `none` standing for the Go `nil` result of the
  evaluator's fall-through `return nil`.
* Go heap pointers are modelled by a `ref : Nat` field on every object
  variant, drawn from an allocation counter threaded through evaluation;
  Go pointer equality (`==` on interface values) is `goEq`
  (same dynamic type and same address).
* Go runtime faults (integer division by zero, failed type assertions,
  out-of-range slice indexing, method calls on nil interface values) are
  modelled by the `Res.panicRes` outcome, never by an `Error` object.
* Recursion is bounded by an explicit fuel parameter; running out of fuel
  yields the distinct outcome `Res.fuelOut`, which models non-termination /
  call-stack exhaustion, not a value.
* Go `int64` arithmetic wraps around; `i64` reduces a mathematical integer
  into the int64 range.
* Environments are mutable and shared; they are modelled as a list of
  frames indexed by `Nat` references inside the threaded state `St`.
* Go strings are modelled as Lean `String`s (for the evaluator) and as
  lists of byte values (for the lexer, which works byte by byte).
-/

/-! ## The lexer (`golemjs/internal/lexer`) -/

namespace GolemLexer

/-- A token, as in `token.go`: a token type tag and the literal bytes. -/
structure Token where
  typ : String
  literal : List Nat
deriving DecidableEq, Repr

/-- `isLetter` from `lexer.go`: ASCII letters and underscore. -/
def isLetter (c : Nat) : Bool :=
  (97 ≤ c && c ≤ 122) || (65 ≤ c && c ≤ 90) || c == 95

/-- `isDigit` from `lexer.go`: ASCII digits. -/
def isDigit (c : Nat) : Bool :=
  48 ≤ c && c ≤ 57

/-- Whitespace skipped by `skipWhitespace`: space, tab, newline, carriage return. -/
def isWhitespaceCh (c : Nat) : Bool :=
  c == 32 || c == 9 || c == 10 || c == 13

/-- The lexer state from `lexer.go`.  The Go struct carries
`position`, `readPosition` and `ch`; after every `readChar` the invariants
`readPosition = position + 1` and `ch = input[position]` (or `0` past the
end) hold, so the state is faithfully represented by `input` and
`position` alone.  `ch` and `peekChar` are derived. -/
structure LexerImpl where
  input : List Nat
  position : Nat
deriving DecidableEq, Repr

/-- The current character: `input[position]`, or `0` (NUL) past the end. -/
def ch (l : LexerImpl) : Nat := l.input.getD l.position 0

/-- `readChar` from `lexer.go`: advance the cursor by one. -/
def readChar (l : LexerImpl) : LexerImpl := ⟨l.input, l.position + 1⟩

/-- `peekChar` from `lexer.go`: look one character ahead without advancing. -/
def peekChar (l : LexerImpl) : Nat := l.input.getD (l.position + 1) 0

/-- `New` from `lexer.go`: a fresh lexer positioned at the first byte. -/
def newLexer (input : List Nat) : LexerImpl := ⟨input, 0⟩

/-- `skipWhitespace` from `lexer.go`. -/
def skipWhitespace (l : LexerImpl) : LexerImpl :=
  if isWhitespaceCh (ch l) then skipWhitespace (readChar l) else l
termination_by l.input.length - l.position
decreasing_by
  have hlt : l.position < l.input.length := by
    by_contra hge
    have h0 : ch l = 0 := by
      simp only [ch]
      exact List.getD_eq_default _ _ (Nat.le_of_not_lt fun hc => hge (by omega))
    simp [h0, isWhitespaceCh] at *
  simp only [readChar]
  omega

/-- The scanning loop of `readIdentifier` from `lexer.go`: the state after
consuming the maximal run of letters. -/
def readIdentifierEnd (l : LexerImpl) : LexerImpl :=
  if isLetter (ch l) then readIdentifierEnd (readChar l) else l
termination_by l.input.length - l.position
decreasing_by
  have hlt : l.position < l.input.length := by
    by_contra hge
    have h0 : ch l = 0 := by
      simp only [ch]
      exact List.getD_eq_default _ _ (Nat.le_of_not_lt fun hc => hge (by omega))
    simp [h0, isLetter] at *
  simp only [readChar]
  omega

/-- The scanning loop of `readNumber` from `lexer.go`: the state after
consuming the maximal run of digits. -/
def readNumberEnd (l : LexerImpl) : LexerImpl :=
  if isDigit (ch l) then readNumberEnd (readChar l) else l
termination_by l.input.length - l.position
decreasing_by
  have hlt : l.position < l.input.length := by
    by_contra hge
    have h0 : ch l = 0 := by
      simp only [ch]
      exact List.getD_eq_default _ _ (Nat.le_of_not_lt fun hc => hge (by omega))
    simp [h0, isDigit] at *
  simp only [readChar]
  omega

/-- The slice `input[position:endPosition]` used by `readIdentifier` and
`readNumber`. -/
def sliceBytes (input : List Nat) (start stop : Nat) : List Nat :=
  (input.drop start).take (stop - start)

/-- `readIdentifier` from `lexer.go`: the consumed literal and the new state. -/
def readIdentifier (l : LexerImpl) : List Nat × LexerImpl :=
  let l2 := readIdentifierEnd l
  (sliceBytes l.input l.position l2.position, l2)

/-- `readNumber` from `lexer.go`: the consumed literal and the new state. -/
def readNumber (l : LexerImpl) : List Nat × LexerImpl :=
  let l2 := readNumberEnd l
  (sliceBytes l.input l.position l2.position, l2)

/-- `lookupIdent` from `lexer.go`: keywords, with everything else an
identifier.  The keyword byte strings are "fn", "let", "true", "false",
"if", "else", "return". -/
def lookupIdent (lit : List Nat) : String :=
  if lit = [102, 110] then "FUNCTION"
  else if lit = [108, 101, 116] then "LET"
  else if lit = [116, 114, 117, 101] then "TRUE"
  else if lit = [102, 97, 108, 115, 101] then "FALSE"
  else if lit = [105, 102] then "IF"
  else if lit = [101, 108, 115, 101] then "ELSE"
  else if lit = [114, 101, 116, 117, 114, 110] then "RETURN"
  else "IDENT"

/-- The single-character operator and delimiter cases of the `switch` in
`NextToken` that need no lookahead
(`+`, `-`, `/`, `*`, `<`, `>`, `;`, `(`, `)`, `,`, `\x7b`, `\x7d`),
mapped to their token type tags.  `=` and `!` are handled separately with
one-character lookahead. -/
def singleCharToken (c : Nat) : Option String :=
  if c = 43 then some "+"
  else if c = 45 then some "-"
  else if c = 47 then some "/"
  else if c = 42 then some "*"
  else if c = 60 then some "<"
  else if c = 62 then some ">"
  else if c = 59 then some ";"
  else if c = 40 then some "("
  else if c = 41 then some ")"
  else if c = 44 then some ","
  else if c = 123 then some "LBRACE"
  else if c = 125 then some "RBRACE"
  else none

/-- The `switch l.ch` body of `NextToken` (after whitespace has been
skipped).  `=` and `!` look one character ahead to recognise `==` and
`!=`; identifiers and numbers are read without the trailing `readChar`;
anything unrecognised becomes a single-byte ILLEGAL token. -/
def nextTokenAt (l : LexerImpl) : Token × LexerImpl :=
  let c := ch l
  if c = 61 then
    if peekChar l = 61 then (⟨"==", [61, 61]⟩, readChar (readChar l))
    else (⟨"=", [61]⟩, readChar l)
  else if c = 33 then
    if peekChar l = 61 then (⟨"!=", [33, 61]⟩, readChar (readChar l))
    else (⟨"!", [33]⟩, readChar l)
  else if c = 0 then (⟨"EOF", []⟩, readChar l)
  else
    match singleCharToken c with
    | some t => (⟨t, [c]⟩, readChar l)
    | none =>
      if isLetter c then
        let (lit, l2) := readIdentifier l
        (⟨lookupIdent lit, lit⟩, l2)
      else if isDigit c then
        let (lit, l2) := readNumber l
        (⟨"INT", lit⟩, l2)
      else (⟨"ILLEGAL", [c]⟩, readChar l)

/-- `NextToken` from `lexer.go`: skip whitespace, then run the switch. -/
def nextToken (l : LexerImpl) : Token × LexerImpl :=
  nextTokenAt (skipWhitespace l)

/-- The lexer state after `n` calls to `NextToken`. -/
def iterateLexer : Nat → LexerImpl → LexerImpl
  | 0, l => l
  | n + 1, l => iterateLexer n (nextToken l).2

/-- The `n`-th token (0-indexed) produced by repeated `NextToken` calls. -/
def nthToken (l : LexerImpl) (n : Nat) : Token :=
  (nextToken (iterateLexer n l)).1

end GolemLexer

/-! ## The AST

The evaluators import package `ast`.  The `ast.go` present in the sources
defines only part of the node set (Program, Identifier, Literal,
BinaryExpression, VariableDeclaration, FunctionDeclaration, CallExpression,
BlockStatement, IfStatement, WhileStatement, ReturnStatement); the node
types the interpreters actually dispatch on (IntegerLiteral, StringLiteral,
Boolean, PrefixExpression, InfixExpression, IfExpression, LetStatement,
FunctionLiteral, ArrayLiteral, IndexExpression, HashLiteral) are absent
from the sources.  Their shapes below are pinned by the interpreters' field
accesses and by spec section 3's node list (Modelled from the spec where the
struct declarations themselves are missing).  A `BlockStatement` is a list
of statements; an `IfExpression` consequence/alternative is a block; a
`HashLiteral` holds key/value expression pairs (the Go map's iteration
order is unspecified and irrelevant per the spec, so a list is used). -/

namespace Golem

mutual

inductive Expr where
  | integerLiteral (value : Int)
  | stringLiteral (value : String)
  | booleanLit (value : Bool)
  | identifier (value : String)
  | prefixExpression (op : String) (right : Expr)
  | infixExpression (op : String) (left : Expr) (right : Expr)
  | ifExpression (condition : Expr) (consequence : List Stmt)
      (alternative : Option (List Stmt))
  | functionLiteral (parameters : List String) (body : List Stmt)
  | callExpression (function : Expr) (arguments : List Expr)
  | arrayLiteral (elements : List Expr)
  | indexExpression (left : Expr) (index : Expr)
  | hashLiteral (pairs : List (Expr × Expr))

inductive Stmt where
  | expressionStatement (expression : Expr)
  | letStatement (name : String) (value : Expr)
  | returnStatement (returnValue : Option Expr)
  | blockStatement (statements : List Stmt)

end

/-! ## The object model (`golemjs/internal/interpreter/interpreter.go`) -/

/-- A hash key.  Modelled from the spec: the `HashKey()` method
implementations for Integer, String and Boolean are absent from the
sources (only the `Hashable` interface and the `HashKey` struct are
declared); per spec section 3, "HashKey is derived only from Hashable
variants (Integer, String, Boolean)", so a key is the kind-tagged value
itself. -/
inductive HashKey where
  | intKey (value : Int)
  | stringKey (value : String)
  | boolKey (value : Bool)
deriving DecidableEq, Repr

/-- The runtime object, a closed tagged union.  Every variant carries a
`ref : Nat` modelling its Go heap address (all Go `Object` values are
pointers `*T`); `returnValue`, array elements and hash pair components are
`Option Obj` because Go interface fields can hold `nil`.  A `functionO`
captures the reference of its defining environment. -/
inductive Obj where
  | nullO (ref : Nat)
  | errorO (ref : Nat) (message : String)
  | integer (ref : Nat) (value : Int)
  | stringO (ref : Nat) (value : String)
  | boolean (ref : Nat) (value : Bool)
  | returnValue (ref : Nat) (value : Option Obj)
  | functionO (ref : Nat) (parameters : List String) (body : List Stmt) (env : Nat)
  | builtinO (ref : Nat) (name : String)
  | arrayO (ref : Nat) (elements : List (Option Obj))
  | hashO (ref : Nat) (pairs : List (HashKey × Option Obj × Option Obj))

/-- `Type()` of each object variant, as the `ObjectType` string constants. -/
def objType : Obj → String
  | .nullO _ => "NULL"
  | .errorO _ _ => "ERROR"
  | .integer _ _ => "INTEGER"
  | .stringO _ _ => "STRING"
  | .boolean _ _ => "BOOLEAN"
  | .returnValue _ _ => "RETURN_VALUE"
  | .functionO _ _ _ _ => "FUNCTION"
  | .builtinO _ _ => "BUILTIN"
  | .arrayO _ _ => "ARRAY"
  | .hashO _ _ => "HASH"

/-- The heap address of an object. -/
def refOf : Obj → Nat
  | .nullO r => r
  | .errorO r _ => r
  | .integer r _ => r
  | .stringO r _ => r
  | .boolean r _ => r
  | .returnValue r _ => r
  | .functionO r _ _ _ => r
  | .builtinO r _ => r
  | .arrayO r _ => r
  | .hashO r _ => r

/-- Go interface-value equality (`left == right` on two `Object`s): the
dynamic types and the pointers must both agree. -/
def goEq (a b : Obj) : Bool :=
  objType a == objType b && refOf a == refOf b

/-- The shared TRUE singleton (`var TRUE = &Boolean{Value: true}`),
at the fixed address 0. -/
def TRUE : Obj := .boolean 0 true

/-- The shared FALSE singleton (`var FALSE = &Boolean{Value: false}`),
at the fixed address 1. -/
def FALSE : Obj := .boolean 1 false

/-- The shared NULL singleton (`var NULL = &Null{}`), at the fixed
address 2. -/
def NULL : Obj := .nullO 2

/-- `nativeBoolToBooleanObject`: the only way the evaluator produces a
Boolean object — it always returns one of the two singletons. -/
def nativeBoolToBooleanObject (input : Bool) : Obj :=
  if input then TRUE else FALSE

/-- `isError`: nil is not an error; otherwise check the type tag. -/
def isError : Option Obj → Bool
  | some o => objType o == "ERROR"
  | none => false

/-- `isTruthy`: the Go `switch obj` compares the interface value against
the three singletons by pointer; everything else (including a nil
interface value) falls to the default case and is truthy. -/
def isTruthy : Option Obj → Bool
  | some o =>
    if goEq o NULL then false
    else if goEq o TRUE then true
    else if goEq o FALSE then false
    else true
  | none => true

/-- Go `int64` wrap-around: reduce an integer into `[-2^63, 2^63)`. -/
def i64 (z : Int) : Int := (z + 2 ^ 63) % 2 ^ 64 - 2 ^ 63

/-! ## Environments and the threaded state -/

/-- One `Environment` frame: a name-to-value map (`store`) and the
optional reference of the enclosing environment (`outer`). -/
structure Frame where
  store : List (String × Option Obj)
  outer : Option Nat

/-- The threaded state: all environment frames ever created (indexed by
their `Nat` reference) and the next fresh heap address. -/
structure St where
  frames : List Frame
  nextRef : Nat

/-- Map lookup in one frame's store. -/
def storeGet : List (String × Option Obj) → String → Option (Option Obj)
  | [], _ => none
  | (k, v) :: rest, name => if k = name then some v else storeGet rest name

/-- Map update in one frame's store (overwrite an existing binding,
otherwise append). -/
def storeSet : List (String × Option Obj) → String → Option Obj →
    List (String × Option Obj)
  | [], name, v => [(name, v)]
  | (k, w) :: rest, name, v =>
    if k = name then (k, v) :: rest else (k, w) :: storeSet rest name v

/-- `Environment.Get`: look in the frame, then recursively in `outer`.
The recursion is bounded by a fuel parameter; in every reachable state
each frame's `outer` points to an earlier frame, so a fuel of
`frames.length` always suffices. -/
def envGetAux : Nat → List Frame → Nat → String → Option (Option Obj)
  | 0, _, _, _ => none
  | fuel + 1, frames, envRef, name =>
    match frames[envRef]? with
    | none => none
    | some f =>
      match storeGet f.store name with
      | some v => some v
      | none =>
        match f.outer with
        | none => none
        | some o => envGetAux fuel frames o name

/-- `Environment.Get` on the threaded state. -/
def envGet (st : St) (envRef : Nat) (name : String) : Option (Option Obj) :=
  envGetAux st.frames.length st.frames envRef name

/-- `Environment.Set`: write into the designated frame only (never an
outer one). -/
def envSet (st : St) (envRef : Nat) (name : String) (v : Option Obj) : St :=
  match st.frames[envRef]? with
  | some f =>
    { st with frames := st.frames.set envRef { f with store := storeSet f.store name v } }
  | none => st

/-- Allocate a fresh heap address. -/
def alloc (st : St) : Nat × St :=
  (st.nextRef, { st with nextRef := st.nextRef + 1 })

/-- `NewEnvironment(outer)`: append a fresh empty frame and return its
reference. -/
def newEnvironment (st : St) (outer : Option Nat) : Nat × St :=
  (st.frames.length, { st with frames := st.frames ++ [⟨[], outer⟩] })

/-- The Go runtime faults the evaluator can hit: integer division by
zero, a failed (single-result) type assertion, out-of-range slice
indexing, and calling a method on a nil interface value. -/
inductive PanicKind where
  | divByZero
  | typeAssertFail
  | indexOutOfRange
  | nilMethodCall
deriving DecidableEq, Repr

/-- The outcome of evaluating one node: a Go `Object` result (possibly
the nil interface value), a runtime fault, or fuel exhaustion. -/
inductive Res where
  | val (v : Option Obj)
  | panicRes (k : PanicKind)
  | fuelOut

/-- The outcome of `evalExpressions`: an object list, a fault, or fuel
exhaustion. -/
inductive ListRes where
  | vals (l : List (Option Obj))
  | panicL (k : PanicKind)
  | fuelOutL

/-- `newError`: allocate a fresh `&Error` with the given message. -/
def newError (msg : String) (st : St) : Res × St :=
  let (r, st) := alloc st
  (.val (some (.errorO r msg)), st)

/-! ## Non-recursive evaluation helpers
(`golemjs/internal/interpreter/interpreter.go`) -/

/-- `evalBangOperatorExpression`.  The golemjs interpreter file dispatches
to this method but does not define it; the definition is taken from the
sibling interpreter (`internal/interpreter/interpreter.go`, which the spec
also covers): a Go `switch right` comparing the interface value against
the three singletons by pointer, with everything else falsy-negated to
FALSE. -/
def evalBangOperatorExpression (right : Option Obj) : Obj :=
  match right with
  | some o =>
    if goEq o TRUE then FALSE
    else if goEq o FALSE then TRUE
    else if goEq o NULL then TRUE
    else FALSE
  | none => FALSE

/-- `evalMinusPrefixOperatorExpression`, taken like the bang operator from
`internal/interpreter/interpreter.go`: non-Integer operands yield an
unknown-operator Error; a nil operand faults on `right.Type()`. -/
def evalMinusPrefixOperatorExpression (right : Option Obj) (st : St) : Res × St :=
  match right with
  | none => (.panicRes .nilMethodCall, st)
  | some o =>
    if objType o ≠ "INTEGER" then
      newError ("unknown operator: -" ++ objType o) st
    else
      match o with
      | .integer _ v =>
        let (r, st) := alloc st
        (.val (some (.integer r (i64 (-v)))), st)
      | _ => (.panicRes .typeAssertFail, st)

/-- `evalPrefixExpression`: dispatch on the operator; unknown operators
produce an Error whose message mentions the operand type (a nil operand
faults on `right.Type()`). -/
def evalPrefixExpression (op : String) (right : Option Obj) (st : St) : Res × St :=
  if op = "!" then (.val (some (evalBangOperatorExpression right)), st)
  else if op = "-" then evalMinusPrefixOperatorExpression right st
  else
    match right with
    | none => (.panicRes .nilMethodCall, st)
    | some o => newError ("unknown operator: " ++ op ++ objType o) st

/-- `evalIntegerInfixExpression`: arithmetic with `int64` wrap-around,
comparisons to the Boolean singletons, unknown operators to an Error.
Division faults on a zero divisor (Go integer division by zero), the gap
the spec flags.  The `.(*Integer)` assertions cannot fail at the call
site but are modelled as the faults they would be. -/
def evalIntegerInfixExpression (op : String) (left right : Obj) (st : St) : Res × St :=
  match left, right with
  | .integer _ leftVal, .integer _ rightVal =>
    if op = "+" then
      let (r, st) := alloc st
      (.val (some (.integer r (i64 (leftVal + rightVal)))), st)
    else if op = "-" then
      let (r, st) := alloc st
      (.val (some (.integer r (i64 (leftVal - rightVal)))), st)
    else if op = "*" then
      let (r, st) := alloc st
      (.val (some (.integer r (i64 (leftVal * rightVal)))), st)
    else if op = "/" then
      if rightVal = 0 then (.panicRes .divByZero, st)
      else
        let (r, st) := alloc st
        (.val (some (.integer r (i64 (Int.tdiv leftVal rightVal)))), st)
    else if op = "<" then (.val (some (nativeBoolToBooleanObject (leftVal < rightVal))), st)
    else if op = ">" then (.val (some (nativeBoolToBooleanObject (leftVal > rightVal))), st)
    else if op = "==" then (.val (some (nativeBoolToBooleanObject (leftVal == rightVal))), st)
    else if op = "!=" then (.val (some (nativeBoolToBooleanObject (leftVal != rightVal))), st)
    else newError ("unknown operator: " ++ objType left ++ " " ++ op ++ " " ++ objType right) st
  | _, _ => (.panicRes .typeAssertFail, st)

/-- `evalStringInfixExpression`: concatenation when both operands are
Strings, otherwise a type-mismatch Error. -/
def evalStringInfixExpression (left right : Obj) (st : St) : Res × St :=
  if objType left ≠ "STRING" ∨ objType right ≠ "STRING" then
    newError ("type mismatch: " ++ objType left ++ " + " ++ objType right) st
  else
    match left, right with
    | .stringO _ leftVal, .stringO _ rightVal =>
      let (r, st) := alloc st
      (.val (some (.stringO r (leftVal ++ rightVal))), st)
    | _, _ => (.panicRes .typeAssertFail, st)

/-- `evalInfixExpression`: integer pairs, then the `+` string case, then
identity `==`/`!=`, then type-mismatch / unknown-operator Errors.  The
first `switch` case calls `.Type()` on both operands, so a nil operand
faults here. -/
def evalInfixExpression (op : String) (left right : Option Obj) (st : St) : Res × St :=
  match left, right with
  | some lo, some ro =>
    if objType lo = "INTEGER" ∧ objType ro = "INTEGER" then
      evalIntegerInfixExpression op lo ro st
    else if op = "+" then evalStringInfixExpression lo ro st
    else if op = "==" then (.val (some (nativeBoolToBooleanObject (goEq lo ro))), st)
    else if op = "!=" then (.val (some (nativeBoolToBooleanObject (!goEq lo ro))), st)
    else if objType lo ≠ objType ro then
      newError ("type mismatch: " ++ objType lo ++ " " ++ op ++ " " ++ objType ro) st
    else
      newError ("unknown operator: " ++ objType lo ++ " " ++ op ++ " " ++ objType ro) st
  | _, _ => (.panicRes .nilMethodCall, st)

/-- `evalArrayIndexExpression`: the `array.(*Array)` assertion is safe at
the call site; the `index.(*Integer)` assertion is unchecked and faults on
any non-Integer index.  Out-of-range integer indexes yield NULL. -/
def evalArrayIndexExpression (array index : Option Obj) (st : St) : Res × St :=
  match array with
  | some (.arrayO _ elements) =>
    match index with
    | some (.integer _ idx) =>
      if idx < 0 ∨ idx > (elements.length : Int) - 1 then (.val (some NULL), st)
      else (.val (elements.getD idx.toNat none), st)
    | _ => (.panicRes .typeAssertFail, st)
  | _ => (.panicRes .typeAssertFail, st)

/-- The `index.(Hashable)` capability test.  Modelled from the spec: no
`HashKey()` implementations exist in the sources; per spec section 3 the
Hashable variants are exactly Integer, String and Boolean. -/
def hashKeyOfObj : Obj → Option HashKey
  | .integer _ v => some (.intKey v)
  | .stringO _ s => some (.stringKey s)
  | .boolean _ b => some (.boolKey b)
  | _ => none

/-- Lookup in a hash's pair map. -/
def pairsGet : List (HashKey × Option Obj × Option Obj) → HashKey →
    Option (Option Obj × Option Obj)
  | [], _ => none
  | (k, kv, vv) :: rest, key => if k = key then some (kv, vv) else pairsGet rest key

/-- Update of a hash's pair map (overwrite an existing key, otherwise
append). -/
def pairsSet : List (HashKey × Option Obj × Option Obj) → HashKey →
    Option Obj × Option Obj → List (HashKey × Option Obj × Option Obj)
  | [], key, p => [(key, p.1, p.2)]
  | (k, kv, vv) :: rest, key, p =>
    if k = key then (k, p.1, p.2) :: rest else (k, kv, vv) :: pairsSet rest key p

/-- `evalHashIndexExpression`: a non-Hashable index yields an Error; a
missing key yields NULL; a present key yields the stored pair's value.
A nil index fails the assertion and then faults on `index.Type()` inside
the error formatting. -/
def evalHashIndexExpression (hash index : Option Obj) (st : St) : Res × St :=
  match hash with
  | some (.hashO _ pairs) =>
    match index with
    | none => (.panicRes .nilMethodCall, st)
    | some io =>
      match hashKeyOfObj io with
      | none => newError ("unusable as hash key: " ++ objType io) st
      | some key =>
        match pairsGet pairs key with
        | none => (.val (some NULL), st)
        | some (_, v) => (.val v, st)
  | _ => (.panicRes .typeAssertFail, st)

/-- `evalIndexExpression`: dispatch on the collection type; a nil
collection faults on `left.Type()`. -/
def evalIndexExpression (left index : Option Obj) (st : St) : Res × St :=
  match left with
  | none => (.panicRes .nilMethodCall, st)
  | some lo =>
    if objType lo = "ARRAY" then evalArrayIndexExpression left index st
    else if objType lo = "HASH" then evalHashIndexExpression left index st
    else newError ("index operator not supported: " ++ objType lo) st

/-- `unwrapReturnValue`: strip one ReturnValue wrapper, if present. -/
def unwrapReturnValue : Option Obj → Option Obj
  | some (.returnValue _ v) => v
  | v => v

/-- The fixed builtin registry (`var builtins`), one shared object per
name at fixed addresses 3..8. -/
def builtins (name : String) : Option Obj :=
  if name = "len" then some (.builtinO 3 "len")
  else if name = "first" then some (.builtinO 4 "first")
  else if name = "last" then some (.builtinO 5 "last")
  else if name = "rest" then some (.builtinO 6 "rest")
  else if name = "push" then some (.builtinO 7 "push")
  else if name = "puts" then some (.builtinO 8 "puts")
  else none

/-- The native implementations behind the builtin registry.  Each
validates its argument count and kinds and returns a value or an Error;
`.Type()` / `.Inspect()` on a nil argument faults.  `puts` prints its
arguments; the output itself is not modelled, only its NULL result. -/
def applyBuiltin (name : String) (args : List (Option Obj)) (st : St) : Res × St :=
  if name = "len" then
    if args.length ≠ 1 then
      newError ("wrong number of arguments. got=" ++ toString args.length ++ ", want=1") st
    else
      match args.getD 0 none with
      | some (.arrayO _ elements) =>
        let (r, st) := alloc st
        (.val (some (.integer r (i64 elements.length))), st)
      | some (.stringO _ s) =>
        let (r, st) := alloc st
        (.val (some (.integer r (i64 s.length))), st)
      | some o => newError ("argument to `len` not supported, got " ++ objType o) st
      | none => (.panicRes .nilMethodCall, st)
  else if name = "first" then
    if args.length ≠ 1 then
      newError ("wrong number of arguments. got=" ++ toString args.length ++ ", want=1") st
    else
      match args.getD 0 none with
      | none => (.panicRes .nilMethodCall, st)
      | some o =>
        if objType o ≠ "ARRAY" then
          newError ("argument to `first` must be ARRAY, got " ++ objType o) st
        else
          match o with
          | .arrayO _ elements =>
            if elements.length > 0 then (.val (elements.getD 0 none), st)
            else (.val (some NULL), st)
          | _ => (.panicRes .typeAssertFail, st)
  else if name = "last" then
    if args.length ≠ 1 then
      newError ("wrong number of arguments. got=" ++ toString args.length ++ ", want=1") st
    else
      match args.getD 0 none with
      | none => (.panicRes .nilMethodCall, st)
      | some o =>
        if objType o ≠ "ARRAY" then
          newError ("argument to `last` must be ARRAY, got " ++ objType o) st
        else
          match o with
          | .arrayO _ elements =>
            if elements.length > 0 then (.val (elements.getD (elements.length - 1) none), st)
            else (.val (some NULL), st)
          | _ => (.panicRes .typeAssertFail, st)
  else if name = "rest" then
    if args.length ≠ 1 then
      newError ("wrong number of arguments. got=" ++ toString args.length ++ ", want=1") st
    else
      match args.getD 0 none with
      | none => (.panicRes .nilMethodCall, st)
      | some o =>
        if objType o ≠ "ARRAY" then
          newError ("argument to `rest` must be ARRAY, got " ++ objType o) st
        else
          match o with
          | .arrayO _ elements =>
            if elements.length > 0 then
              let (r, st) := alloc st
              (.val (some (.arrayO r (elements.drop 1))), st)
            else (.val (some NULL), st)
          | _ => (.panicRes .typeAssertFail, st)
  else if name = "push" then
    if args.length ≠ 2 then
      newError ("wrong number of arguments. got=" ++ toString args.length ++ ", want=2") st
    else
      match args.getD 0 none with
      | none => (.panicRes .nilMethodCall, st)
      | some o =>
        if objType o ≠ "ARRAY" then
          newError ("argument to `push` must be ARRAY, got " ++ objType o) st
        else
          match o with
          | .arrayO _ elements =>
            let (r, st) := alloc st
            (.val (some (.arrayO r (elements ++ [args.getD 1 none]))), st)
          | _ => (.panicRes .typeAssertFail, st)
  else if name = "puts" then
    if args.any (fun a => a.isNone) then (.panicRes .nilMethodCall, st)
    else (.val (some NULL), st)
  else (.val none, st)

/-- The parameter-binding loop of `extendFunctionEnv`: bind each parameter
positionally to `args[paramIdx]`.  Accessing past the end of `args`
(fewer arguments than parameters) is an out-of-range fault. -/
def bindParams : List String → Nat → List (Option Obj) → Nat → St →
    (Except PanicKind Nat) × St
  | [], _, _, envRef, st => (.ok envRef, st)
  | p :: rest, idx, args, envRef, st =>
    if idx < args.length then
      bindParams rest (idx + 1) args envRef (envSet st envRef p (args.getD idx none))
    else (.error .indexOutOfRange, st)

/-- `extendFunctionEnv`: a fresh child frame whose `outer` is the
function's captured environment, with the parameters bound positionally. -/
def extendFunctionEnv (parameters : List String) (fnEnv : Nat)
    (args : List (Option Obj)) (st : St) : (Except PanicKind Nat) × St :=
  let (envRef, st) := newEnvironment st (some fnEnv)
  bindParams parameters 0 args envRef st

/-! ## The golemjs evaluator (`Interpreter.Eval` and friends)

The Go `Eval` method dispatches on the dynamic node type; it is split here
into `evalExpr` (expression nodes) and `evalStmt` (statement nodes), with
`evalProgram` for the root.  The `env` parameter models the interpreter's
`i.env` field: the golemjs interpreter never replaces it (its
`applyFunction` computes `extendedEnv` but evaluates the body with
`i.Eval`, i.e. in the unchanged current environment — the unused variable
is also a Go compile error), so the same reference is passed to every
recursive call.  Fuel decreases on every call. -/

mutual

def evalExpr : Nat → Expr → Nat → St → Res × St
  | 0, _, _, st => (.fuelOut, st)
  | fuel + 1, e, env, st =>
    match e with
    | .integerLiteral v =>
      let (r, st) := alloc st
      (.val (some (.integer r v)), st)
    | .stringLiteral s =>
      let (r, st) := alloc st
      (.val (some (.stringO r s)), st)
    | .booleanLit b => (.val (some (nativeBoolToBooleanObject b)), st)
    | .identifier name =>
      match envGet st env name with
      | some v => (.val v, st)
      | none =>
        match builtins name with
        | some b => (.val (some b), st)
        | none => newError ("identifier not found: " ++ name) st
    | .prefixExpression op right =>
      match evalExpr fuel right env st with
      | (.val v, st) =>
        if isError v then (.val v, st) else evalPrefixExpression op v st
      | other => other
    | .infixExpression op l r =>
      match evalExpr fuel l env st with
      | (.val lv, st) =>
        if isError lv then (.val lv, st)
        else
          match evalExpr fuel r env st with
          | (.val rv, st) =>
            if isError rv then (.val rv, st) else evalInfixExpression op lv rv st
          | other => other
      | other => other
    | .ifExpression cond cons alt =>
      match evalExpr fuel cond env st with
      | (.val cv, st) =>
        if isError cv then (.val cv, st)
        else if isTruthy cv then evalBlockStatement fuel cons env st
        else
          match alt with
          | some b => evalBlockStatement fuel b env st
          | none => (.val (some NULL), st)
      | other => other
    | .functionLiteral params body =>
      let (r, st) := alloc st
      (.val (some (.functionO r params body env)), st)
    | .callExpression f argEs =>
      match evalExpr fuel f env st with
      | (.val fv, st) =>
        if isError fv then (.val fv, st)
        else
          match evalExpressions fuel argEs env st with
          | (.vals args, st) =>
            if args.length = 1 ∧ isError (args.getD 0 none) then
              (.val (args.getD 0 none), st)
            else applyFunction fuel fv args env st
          | (.panicL k, st) => (.panicRes k, st)
          | (.fuelOutL, st) => (.fuelOut, st)
      | other => other
    | .arrayLiteral elemEs =>
      match evalExpressions fuel elemEs env st with
      | (.vals elements, st) =>
        if elements.length = 1 ∧ isError (elements.getD 0 none) then
          (.val (elements.getD 0 none), st)
        else
          let (r, st) := alloc st
          (.val (some (.arrayO r elements)), st)
      | (.panicL k, st) => (.panicRes k, st)
      | (.fuelOutL, st) => (.fuelOut, st)
    | .indexExpression l idx =>
      match evalExpr fuel l env st with
      | (.val lv, st) =>
        if isError lv then (.val lv, st)
        else
          match evalExpr fuel idx env st with
          | (.val iv, st) =>
            if isError iv then (.val iv, st) else evalIndexExpression lv iv st
          | other => other
      | other => other
    | .hashLiteral pairEs => evalHashPairs fuel pairEs [] env st
termination_by structural fuel => fuel

/-- The pair loop of `evalHashLiteral`: evaluate each key, check it is
Hashable, evaluate its value, store the pair; the first Error aborts.  A
nil key fails the Hashable assertion and then faults on `key.Type()`. -/
def evalHashPairs : Nat → List (Expr × Expr) →
    List (HashKey × Option Obj × Option Obj) → Nat → St → Res × St
  | 0, _, _, _, st => (.fuelOut, st)
  | _ + 1, [], acc, _, st =>
    let (r, st) := alloc st
    (.val (some (.hashO r acc)), st)
  | fuel + 1, (kE, vE) :: rest, acc, env, st =>
    match evalExpr fuel kE env st with
    | (.val kv, st) =>
      if isError kv then (.val kv, st)
      else
        match kv with
        | none => (.panicRes .nilMethodCall, st)
        | some ko =>
          match hashKeyOfObj ko with
          | none => newError ("unusable as hash key: " ++ objType ko) st
          | some hk =>
            match evalExpr fuel vE env st with
            | (.val vv, st) =>
              if isError vv then (.val vv, st)
              else evalHashPairs fuel rest (pairsSet acc hk (some ko, vv)) env st
            | other => other
    | other => other
termination_by structural fuel => fuel

/-- `evalExpressions`: evaluate left to right; the first Error is
returned as a singleton list. -/
def evalExpressions : Nat → List Expr → Nat → St → ListRes × St
  | 0, _, _, st => (.fuelOutL, st)
  | _ + 1, [], _, st => (.vals [], st)
  | fuel + 1, e :: rest, env, st =>
    match evalExpr fuel e env st with
    | (.val v, st) =>
      if isError v then (.vals [v], st)
      else
        match evalExpressions fuel rest env st with
        | (.vals vs, st) => (.vals (v :: vs), st)
        | other => other
    | (.panicRes k, st) => (.panicL k, st)
    | (.fuelOut, st) => (.fuelOutL, st)
termination_by structural fuel => fuel

def evalStmt : Nat → Stmt → Nat → St → Res × St
  | 0, _, _, st => (.fuelOut, st)
  | fuel + 1, s, env, st =>
    match s with
    | .expressionStatement e => evalExpr fuel e env st
    | .blockStatement stmts => evalBlockStatement fuel stmts env st
    | .returnStatement oe =>
      match oe with
      | none =>
        let (r, st) := alloc st
        (.val (some (.returnValue r none)), st)
      | some e =>
        match evalExpr fuel e env st with
        | (.val v, st) =>
          if isError v then (.val v, st)
          else
            let (r, st) := alloc st
            (.val (some (.returnValue r v)), st)
        | other => other
    | .letStatement name e =>
      match evalExpr fuel e env st with
      | (.val v, st) =>
        if isError v then (.val v, st)
        else (.val none, envSet st env name v)
      | other => other
termination_by structural fuel => fuel

/-- `evalBlockStatement`: statements in order; a non-nil RETURN_VALUE or
ERROR result aborts the rest and is returned as-is; otherwise the last
result (nil for an empty block) is returned. -/
def evalBlockStatement : Nat → List Stmt → Nat → St → Res × St
  | 0, _, _, st => (.fuelOut, st)
  | _ + 1, [], _, st => (.val none, st)
  | fuel + 1, s :: rest, env, st =>
    match evalStmt fuel s env st with
    | (.val v, st) =>
      match v with
      | some o =>
        if objType o = "RETURN_VALUE" ∨ objType o = "ERROR" then (.val (some o), st)
        else if rest.isEmpty then (.val (some o), st)
        else evalBlockStatement fuel rest env st
      | none =>
        if rest.isEmpty then (.val none, st)
        else evalBlockStatement fuel rest env st
    | other => other
termination_by structural fuel => fuel

/-- `evalProgram`: statements in order; a ReturnValue result returns its
carried value (unwrapped), an Error is returned as-is, otherwise the last
result is returned. -/
def evalProgram : Nat → List Stmt → Nat → St → Res × St
  | 0, _, _, st => (.fuelOut, st)
  | _ + 1, [], _, st => (.val none, st)
  | fuel + 1, s :: rest, env, st =>
    match evalStmt fuel s env st with
    | (.val v, st) =>
      match v with
      | some (.returnValue _ inner) => (.val inner, st)
      | some (.errorO r m) => (.val (some (.errorO r m)), st)
      | v =>
        if rest.isEmpty then (.val v, st)
        else evalProgram fuel rest env st
    | other => other
termination_by structural fuel => fuel

/-- `applyFunction` as written in the golemjs interpreter: for a Function
it computes `extendedEnv` (which can fault on an argument-count
mismatch) but then evaluates the body with `i.Eval(fn.Body)`, i.e. in the
interpreter's current environment `env`, not in `extendedEnv`, and
unwraps one ReturnValue layer; for a Builtin it invokes the native
implementation; anything else is a not-a-function Error (faulting on
`fn.Type()` when `fn` is nil). -/
def applyFunction : Nat → Option Obj → List (Option Obj) → Nat → St → Res × St
  | 0, _, _, _, st => (.fuelOut, st)
  | fuel + 1, fn, args, env, st =>
    match fn with
    | some (.functionO _ params body _fnEnv) =>
      match extendFunctionEnv params _fnEnv args st with
      | (.error k, st) => (.panicRes k, st)
      | (.ok _extendedEnv, st) =>
        match evalBlockStatement fuel body env st with
        | (.val v, st) => (.val (unwrapReturnValue v), st)
        | other => other
    | some (.builtinO _ name) => applyBuiltin name args st
    | some other => newError ("not a function: " ++ objType other) st
    | none => (.panicRes .nilMethodCall, st)
termination_by structural fuel => fuel

end

/-- The interpreter state built by `New()`: one root environment frame and
the reserved addresses 0..8 for the singletons and the builtin registry. -/
def initialSt : St := ⟨[⟨[], none⟩], 9⟩

/-- The root environment reference. -/
def rootEnv : Nat := 0

end Golem

/-! ## The second interpreter (`internal/interpreter/interpreter.go`)

This interpreter shares the object model (its object set is the subset
without String/Array/Hash; `Builtin` exists but its registry is empty and
no builtin object is ever constructed).  It differs from the golemjs one
in exactly these points, each visible in its source:

* `applyFunction` builds `extendedEnv` and evaluates the function body in
  a fresh interpreter whose environment is `extendedEnv`;
* a `LetStatement` returns the bound value (not nil);
* identifier lookup has no builtin fallback;
* `Eval` has no cases for StringLiteral / ArrayLiteral / IndexExpression /
  HashLiteral, so those nodes fall through to `return nil`;
* `evalInfixExpression` has no string-concatenation case.

The shared helpers (`evalBangOperatorExpression`,
`evalMinusPrefixOperatorExpression`, `evalIntegerInfixExpression`,
`isTruthy`, `isError`, `unwrapReturnValue`, `extendFunctionEnv`,
environments, singletons) are textually identical in both Go files and
are reused from namespace `Golem`. -/

namespace MInterp

open Golem

/-- `evalInfixExpression` of the second interpreter: integer pairs, then
identity `==`/`!=`, then type-mismatch / unknown-operator Errors (no
string case). -/
def evalInfixExpression (op : String) (left right : Option Obj) (st : St) : Res × St :=
  match left, right with
  | some lo, some ro =>
    if objType lo = "INTEGER" ∧ objType ro = "INTEGER" then
      evalIntegerInfixExpression op lo ro st
    else if op = "==" then (.val (some (nativeBoolToBooleanObject (goEq lo ro))), st)
    else if op = "!=" then (.val (some (nativeBoolToBooleanObject (!goEq lo ro))), st)
    else if objType lo ≠ objType ro then
      newError ("type mismatch: " ++ objType lo ++ " " ++ op ++ " " ++ objType ro) st
    else
      newError ("unknown operator: " ++ objType lo ++ " " ++ op ++ " " ++ objType ro) st
  | _, _ => (.panicRes .nilMethodCall, st)

mutual

def evalExpr : Nat → Expr → Nat → St → Res × St
  | 0, _, _, st => (.fuelOut, st)
  | fuel + 1, e, env, st =>
    match e with
    | .integerLiteral v =>
      let (r, st) := alloc st
      (.val (some (.integer r v)), st)
    | .booleanLit b => (.val (some (nativeBoolToBooleanObject b)), st)
    | .identifier name =>
      match envGet st env name with
      | some v => (.val v, st)
      | none => newError ("identifier not found: " ++ name) st
    | .prefixExpression op right =>
      match evalExpr fuel right env st with
      | (.val v, st) =>
        if isError v then (.val v, st) else evalPrefixExpression op v st
      | other => other
    | .infixExpression op l r =>
      match evalExpr fuel l env st with
      | (.val lv, st) =>
        if isError lv then (.val lv, st)
        else
          match evalExpr fuel r env st with
          | (.val rv, st) =>
            if isError rv then (.val rv, st) else evalInfixExpression op lv rv st
          | other => other
      | other => other
    | .ifExpression cond cons alt =>
      match evalExpr fuel cond env st with
      | (.val cv, st) =>
        if isError cv then (.val cv, st)
        else if isTruthy cv then evalBlockStatement fuel cons env st
        else
          match alt with
          | some b => evalBlockStatement fuel b env st
          | none => (.val (some NULL), st)
      | other => other
    | .functionLiteral params body =>
      let (r, st) := alloc st
      (.val (some (.functionO r params body env)), st)
    | .callExpression f argEs =>
      match evalExpr fuel f env st with
      | (.val fv, st) =>
        if isError fv then (.val fv, st)
        else
          match evalExpressions fuel argEs env st with
          | (.vals args, st) =>
            if args.length = 1 ∧ isError (args.getD 0 none) then
              (.val (args.getD 0 none), st)
            else applyFunction fuel fv args env st
          | (.panicL k, st) => (.panicRes k, st)
          | (.fuelOutL, st) => (.fuelOut, st)
      | other => other
    | .stringLiteral _ => (.val none, st)
    | .arrayLiteral _ => (.val none, st)
    | .indexExpression _ _ => (.val none, st)
    | .hashLiteral _ => (.val none, st)
termination_by structural fuel => fuel

def evalExpressions : Nat → List Expr → Nat → St → ListRes × St
  | 0, _, _, st => (.fuelOutL, st)
  | _ + 1, [], _, st => (.vals [], st)
  | fuel + 1, e :: rest, env, st =>
    match evalExpr fuel e env st with
    | (.val v, st) =>
      if isError v then (.vals [v], st)
      else
        match evalExpressions fuel rest env st with
        | (.vals vs, st) => (.vals (v :: vs), st)
        | other => other
    | (.panicRes k, st) => (.panicL k, st)
    | (.fuelOut, st) => (.fuelOutL, st)
termination_by structural fuel => fuel

def evalStmt : Nat → Stmt → Nat → St → Res × St
  | 0, _, _, st => (.fuelOut, st)
  | fuel + 1, s, env, st =>
    match s with
    | .expressionStatement e => evalExpr fuel e env st
    | .blockStatement stmts => evalBlockStatement fuel stmts env st
    | .returnStatement oe =>
      match oe with
      | none =>
        let (r, st) := alloc st
        (.val (some (.returnValue r none)), st)
      | some e =>
        match evalExpr fuel e env st with
        | (.val v, st) =>
          if isError v then (.val v, st)
          else
            let (r, st) := alloc st
            (.val (some (.returnValue r v)), st)
        | other => other
    | .letStatement name e =>
      match evalExpr fuel e env st with
      | (.val v, st) =>
        if isError v then (.val v, st)
        else (.val v, envSet st env name v)
      | other => other
termination_by structural fuel => fuel

def evalBlockStatement : Nat → List Stmt → Nat → St → Res × St
  | 0, _, _, st => (.fuelOut, st)
  | _ + 1, [], _, st => (.val none, st)
  | fuel + 1, s :: rest, env, st =>
    match evalStmt fuel s env st with
    | (.val v, st) =>
      match v with
      | some o =>
        if objType o = "RETURN_VALUE" ∨ objType o = "ERROR" then (.val (some o), st)
        else if rest.isEmpty then (.val (some o), st)
        else evalBlockStatement fuel rest env st
      | none =>
        if rest.isEmpty then (.val none, st)
        else evalBlockStatement fuel rest env st
    | other => other
termination_by structural fuel => fuel

def evalProgram : Nat → List Stmt → Nat → St → Res × St
  | 0, _, _, st => (.fuelOut, st)
  | _ + 1, [], _, st => (.val none, st)
  | fuel + 1, s :: rest, env, st =>
    match evalStmt fuel s env st with
    | (.val v, st) =>
      match v with
      | some (.returnValue _ inner) => (.val inner, st)
      | some (.errorO r m) => (.val (some (.errorO r m)), st)
      | v =>
        if rest.isEmpty then (.val v, st)
        else evalProgram fuel rest env st
    | other => other
termination_by structural fuel => fuel

/-- `applyFunction` of the second interpreter: build the extended
environment (which can fault on an argument-count mismatch), evaluate the
body in a fresh interpreter whose environment is `extendedEnv`, and
unwrap one ReturnValue layer.  No builtin object is ever constructed by
this interpreter, so the `*Builtin` case (which would call an arbitrary
native closure) is unreachable; it is modelled as the nil result. -/
def applyFunction : Nat → Option Obj → List (Option Obj) → Nat → St → Res × St
  | 0, _, _, _, st => (.fuelOut, st)
  | fuel + 1, fn, args, _env, st =>
    match fn with
    | some (.functionO _ params body fnEnv) =>
      match extendFunctionEnv params fnEnv args st with
      | (.error k, st) => (.panicRes k, st)
      | (.ok extendedEnv, st) =>
        match evalBlockStatement fuel body extendedEnv st with
        | (.val v, st) => (.val (unwrapReturnValue v), st)
        | other => other
    | some (.builtinO _ _) => (.val none, st)
    | some other => newError ("not a function: " ++ objType other) st
    | none => (.panicRes .nilMethodCall, st)
termination_by structural fuel => fuel

end

/-- The interpreter state built by `New()`: one root environment frame and
the reserved addresses 0..2 for the three singletons. -/
def initialSt : St := ⟨[⟨[], none⟩], 3⟩

end MInterp

/-! ## Result observations and concrete programs -/

namespace Golem

/-- The result is an Integer object with the given value (at any heap
address). -/
def resultIsInt (res : Res) (n : Int) : Bool :=
  match res with
  | .val (some (.integer _ v)) => v == n
  | _ => false

/-- The result is a String object with the given value. -/
def resultIsString (res : Res) (s : String) : Bool :=
  match res with
  | .val (some (.stringO _ v)) => v == s
  | _ => false

/-- The result is the NULL singleton. -/
def resultIsNull (res : Res) : Bool :=
  match res with
  | .val (some (.nullO r)) => r == 2
  | _ => false

/-- The result is the TRUE singleton. -/
def resultIsTrue (res : Res) : Bool :=
  match res with
  | .val (some (.boolean r b)) => r == 0 && b
  | _ => false

/-- The result is the FALSE singleton. -/
def resultIsFalse (res : Res) : Bool :=
  match res with
  | .val (some (.boolean r b)) => r == 1 && !b
  | _ => false

/-- The result is an Error object with the given message. -/
def resultIsError (res : Res) (msg : String) : Bool :=
  match res with
  | .val (some (.errorO _ m)) => m == msg
  | _ => false

/-- The result is the given Go runtime fault. -/
def resultIsPanic (res : Res) (k : PanicKind) : Bool :=
  match res with
  | .panicRes k2 => k == k2
  | _ => false

/-- The closure program from the spec:
`let makeAdder = fn(x) \x7b fn(y) \x7b x + y \x7d \x7d;
let addFive = makeAdder(5); addFive(3)`. -/
def closureProgram : List Stmt :=
  [.letStatement "makeAdder"
     (.functionLiteral ["x"]
        [.expressionStatement
           (.functionLiteral ["y"]
              [.expressionStatement
                 (.infixExpression "+" (.identifier "x") (.identifier "y"))])]),
   .letStatement "addFive"
     (.callExpression (.identifier "makeAdder") [.integerLiteral 5]),
   .expressionStatement (.callExpression (.identifier "addFive") [.integerLiteral 3])]

end Golem

namespace Golem

/-- The spec example `\x7b"a": 1\x7d["a"]`. -/
def hashHitProgram : List Stmt :=
  [.expressionStatement
     (.indexExpression
        (.hashLiteral [(.stringLiteral "a", .integerLiteral 1)])
        (.stringLiteral "a"))]

/-- The spec example `\x7b"a": 1\x7d["b"]`. -/
def hashMissProgram : List Stmt :=
  [.expressionStatement
     (.indexExpression
        (.hashLiteral [(.stringLiteral "a", .integerLiteral 1)])
        (.stringLiteral "b"))]

/-- Indexing a hash with a Function key: `\x7b"a": 1\x7d[fn(x) \x7b x \x7d]`. -/
def hashFnKeyProgram : List Stmt :=
  [.expressionStatement
     (.indexExpression
        (.hashLiteral [(.stringLiteral "a", .integerLiteral 1)])
        (.functionLiteral ["x"] [.expressionStatement (.identifier "x")]))]

/-- Indexing an array with a String index: `[1, 2, 3]["a"]`. -/
def arrayStringIndexProgram : List Stmt :=
  [.expressionStatement
     (.indexExpression
        (.arrayLiteral [.integerLiteral 1, .integerLiteral 2, .integerLiteral 3])
        (.stringLiteral "a"))]

/-- Applying a two-parameter function to one argument: `fn(x, y) \x7b x \x7d (1)`. -/
def arityMismatchProgram : List Stmt :=
  [.expressionStatement
     (.callExpression
        (.functionLiteral ["x", "y"] [.expressionStatement (.identifier "x")])
        [.integerLiteral 1])]

/-- Division by zero: `5 / 0`. -/
def divZeroProgram : List Stmt :=
  [.expressionStatement (.infixExpression "/" (.integerLiteral 5) (.integerLiteral 0))]

/-- The spec example `[1, 2, 3][5]`. -/
def arrayOutOfRangeProgram : List Stmt :=
  [.expressionStatement
     (.indexExpression
        (.arrayLiteral [.integerLiteral 1, .integerLiteral 2, .integerLiteral 3])
        (.integerLiteral 5))]

/-- In-range array indexing: `[1, 2, 3][1]`. -/
def arrayInRangeProgram : List Stmt :=
  [.expressionStatement
     (.indexExpression
        (.arrayLiteral [.integerLiteral 1, .integerLiteral 2, .integerLiteral 3])
        (.integerLiteral 1))]

/-- The spec example `5 + 3`. -/
def intAddProgram : List Stmt :=
  [.expressionStatement (.infixExpression "+" (.integerLiteral 5) (.integerLiteral 3))]

/-- The spec example `"a" + "b"`. -/
def strConcatProgram : List Stmt :=
  [.expressionStatement
     (.infixExpression "+" (.stringLiteral "a") (.stringLiteral "b"))]

/-- The spec example `5 + "b"`. -/
def intStrAddProgram : List Stmt :=
  [.expressionStatement
     (.infixExpression "+" (.integerLiteral 5) (.stringLiteral "b"))]

/-- The spec example `!true`. -/
def bangTrueProgram : List Stmt :=
  [.expressionStatement (.prefixExpression "!" (.booleanLit true))]

/-- The spec example `!false`. -/
def bangFalseProgram : List Stmt :=
  [.expressionStatement (.prefixExpression "!" (.booleanLit false))]

/-- The spec example `!5`. -/
def bangFiveProgram : List Stmt :=
  [.expressionStatement (.prefixExpression "!" (.integerLiteral 5))]

/-- The spec example `!null`, with the NULL value produced by an
alternative-less `if (false) \x7b\x7d`. -/
def bangNullProgram : List Stmt :=
  [.expressionStatement
     (.prefixExpression "!" (.ifExpression (.booleanLit false) [] none))]

/-- A top-level return statement: `return 5;`. -/
def topReturnProgram : List Stmt :=
  [.returnStatement (some (.integerLiteral 5)), .expressionStatement (.integerLiteral 7)]

/-- Unknown prefix operator on a Boolean: `-true`. -/
def minusTrueProgram : List Stmt :=
  [.expressionStatement (.prefixExpression "-" (.booleanLit true))]

/-- Mismatched infix operand types: `true + 5`. -/
def boolPlusIntProgram : List Stmt :=
  [.expressionStatement (.infixExpression "+" (.booleanLit true) (.integerLiteral 5))]

/-- An unbound identifier: `foo`. -/
def unboundIdentProgram : List Stmt :=
  [.expressionStatement (.identifier "foo")]

/-- Calling a non-function: `5(3)`. -/
def callNonFunctionProgram : List Stmt :=
  [.expressionStatement (.callExpression (.integerLiteral 5) [.integerLiteral 3])]

/-- A builtin arity error: `len(1, 2)`. -/
def lenTwoArgsProgram : List Stmt :=
  [.expressionStatement
     (.callExpression (.identifier "len") [.integerLiteral 1, .integerLiteral 2])]

/-- Indexing a non-collection: `5[0]`. -/
def indexIntProgram : List Stmt :=
  [.expressionStatement (.indexExpression (.integerLiteral 5) (.integerLiteral 0))]

/-- If with a falsy condition and no alternative: `if (false) \x7b 10 \x7d`. -/
def ifFalseProgram : List Stmt :=
  [.expressionStatement
     (.ifExpression (.booleanLit false) [.expressionStatement (.integerLiteral 10)] none)]

/-- If with a truthy integer condition:
`if (0) \x7b 10 \x7d else \x7b 20 \x7d` (integer 0 is truthy). -/
def ifZeroProgram : List Stmt :=
  [.expressionStatement
     (.ifExpression (.integerLiteral 0)
        [.expressionStatement (.integerLiteral 10)]
        (some [.expressionStatement (.integerLiteral 20)]))]

/-- A function whose return expression is itself an if-block containing a
return: `fn() \x7b return if (true) \x7b return 5; \x7d; \x7d () + 1` — the call's
result is a raw ReturnValue, which then trips the type-mismatch error in
the addition. -/
def doubleWrapProgram : List Stmt :=
  [.expressionStatement
     (.infixExpression "+"
        (.callExpression
           (.functionLiteral []
              [.returnStatement
                 (some (.ifExpression (.booleanLit true)
                    [.returnStatement (some (.integerLiteral 5))] none))])
           [])
        (.integerLiteral 1))]

end Golem

/-! ## The singleton invariant

An object is well-formed when every Boolean inside it is one of the two
shared singletons (address 0 carrying true, address 1 carrying false) and
every Null inside it is the shared NULL singleton (address 2); a state is
well-formed when every binding of every environment frame is. -/

namespace Golem

mutual

/-- Every Boolean reachable inside the object is the TRUE or FALSE
singleton and every Null is the NULL singleton. -/
def wfObj : Obj → Bool
  | .nullO r => r == 2
  | .boolean r b => (r == 0 && b) || (r == 1 && !b)
  | .integer _ _ => true
  | .stringO _ _ => true
  | .errorO _ _ => true
  | .builtinO _ _ => true
  | .functionO _ _ _ _ => true
  | .returnValue _ v => wfOpt v
  | .arrayO _ elements => wfOptList elements
  | .hashO _ pairs => wfPairs pairs

def wfOpt : Option Obj → Bool
  | none => true
  | some o => wfObj o

def wfOptList : List (Option Obj) → Bool
  | [] => true
  | v :: rest => wfOpt v && wfOptList rest

def wfPairs : List (HashKey × Option Obj × Option Obj) → Bool
  | [] => true
  | (_, kv, vv) :: rest => wfOpt kv && wfOpt vv && wfPairs rest

end

/-- All bindings of one store are well-formed. -/
def wfStore : List (String × Option Obj) → Bool
  | [] => true
  | (_, v) :: rest => wfOpt v && wfStore rest

/-- All frames of a state are well-formed. -/
def wfFrames : List Frame → Bool
  | [] => true
  | f :: rest => wfStore f.store && wfFrames rest

/-- Every binding of every environment frame is well-formed. -/
def wfSt (st : St) : Bool := wfFrames st.frames

/-- A well-formed evaluation outcome: any carried object is well-formed. -/
def wfRes : Res → Bool
  | .val v => wfOpt v
  | _ => true

/-- A well-formed `evalExpressions` outcome. -/
def wfListRes : ListRes → Bool
  | .vals l => wfOptList l
  | _ => true

/-- An Error or ReturnValue object: the two signal kinds that abort a
block. -/
def signalObj (o : Obj) : Bool :=
  objType o == "RETURN_VALUE" || objType o == "ERROR"

/-- A (non-nil) ReturnValue object. -/
def isReturnOpt : Option Obj → Bool
  | some (.returnValue _ _) => true
  | _ => false

/-- A doubly wrapped ReturnValue: a ReturnValue whose carried value is
itself a ReturnValue. -/
def doubleWrapped : Option Obj → Bool
  | some (.returnValue _ (some (.returnValue _ _))) => true
  | _ => false

/-- An object of one of the two singleton-comparison kinds. -/
def boolOrNull (o : Obj) : Bool :=
  objType o == "BOOLEAN" || objType o == "NULL"

end Golem

namespace Golem

/-- Negating the empty string: `!""` (the empty string is truthy). -/
def bangEmptyStrProgram : List Stmt :=
  [.expressionStatement (.prefixExpression "!" (.stringLiteral ""))]

/-- A two-pair hash literal with a lookup of the second pair:
`\x7b"a": 1, "b": 2\x7d["b"]`. -/
def hashSecondProgram : List Stmt :=
  [.expressionStatement
     (.indexExpression
        (.hashLiteral [(.stringLiteral "a", .integerLiteral 1),
                       (.stringLiteral "b", .integerLiteral 2)])
        (.stringLiteral "b"))]

/-- The result is an Error object (with any message). -/
def resIsErrorAny : Res → Bool
  | .val (some (.errorO _ _)) => true
  | _ => false

/-- The result is a raw (non-nil) ReturnValue object. -/
def resIsReturn : Res → Bool
  | .val v => isReturnOpt v
  | _ => false

end Golem


/-! ## Theorems -/

/-! ### The lexer: claims C8 and C9 -/

namespace GolemLexer

theorem skipWhitespace_eq_self (l : LexerImpl) (h : isWhitespaceCh (ch l) = false) :
    skipWhitespace l = l := by
  rw [skipWhitespace]
  simp [h]

theorem skipWhitespace_pos_ge (l : LexerImpl) :
    l.position ≤ (skipWhitespace l).position := by
  induction l using skipWhitespace.induct with
  | case1 l hw ih =>
    rw [skipWhitespace, if_pos hw]
    exact le_trans (by simp [readChar]) ih
  | case2 l hw =>
    rw [skipWhitespace, if_neg hw]

theorem readIdentifierEnd_pos_ge (l : LexerImpl) :
    l.position ≤ (readIdentifierEnd l).position := by
  induction l using readIdentifierEnd.induct with
  | case1 l hw ih =>
    rw [readIdentifierEnd, if_pos hw]
    exact le_trans (by simp [readChar]) ih
  | case2 l hw =>
    rw [readIdentifierEnd, if_neg hw]

theorem readNumberEnd_pos_ge (l : LexerImpl) :
    l.position ≤ (readNumberEnd l).position := by
  induction l using readNumberEnd.induct with
  | case1 l hw ih =>
    rw [readNumberEnd, if_pos hw]
    exact le_trans (by simp [readChar]) ih
  | case2 l hw =>
    rw [readNumberEnd, if_neg hw]

theorem nextTokenAt_pos_gt (l : LexerImpl) :
    l.position < (nextTokenAt l).2.position := by
  rw [nextTokenAt]
  by_cases h61 : ch l = 61
  · by_cases hp : peekChar l = 61
    · simp [h61, hp, readChar]
      omega
    · simp [h61, hp, readChar]
  · by_cases h33 : ch l = 33
    · by_cases hp : peekChar l = 61
      · simp [h61, h33, hp, readChar]
        omega
      · simp [h61, h33, hp, readChar]
    · by_cases h0 : ch l = 0
      · simp [h61, h33, h0, readChar]
      · cases hsc : singleCharToken (ch l) with
        | some t => simp [h61, h33, h0, hsc, readChar]
        | none =>
          by_cases hl : isLetter (ch l)
          · have h1 : l.position + 1 ≤ (readIdentifierEnd (readChar l)).position := by
              simpa [readChar] using readIdentifierEnd_pos_ge (readChar l)
            simp only [h61, h33, h0, hsc, hl, if_neg, if_pos, if_false, if_true]
            simp only [readIdentifier]
            rw [readIdentifierEnd, if_pos hl]
            simp
            omega
          · by_cases hd : isDigit (ch l)
            · have h1 : l.position + 1 ≤ (readNumberEnd (readChar l)).position := by
                simpa [readChar] using readNumberEnd_pos_ge (readChar l)
              simp only [h61, h33, h0, hsc, hl, hd, if_neg, if_pos, if_false, if_true]
              simp only [readNumber]
              rw [readNumberEnd, if_pos hd]
              simp
              omega
            · simp [h61, h33, h0, hsc, hl, hd, readChar]



theorem skipWhitespace_input (l : LexerImpl) :
    (skipWhitespace l).input = l.input := by
  induction l using skipWhitespace.induct with
  | case1 l hw ih =>
    rw [skipWhitespace, if_pos hw]
    simpa [readChar] using ih
  | case2 l hw =>
    rw [skipWhitespace, if_neg hw]

theorem readIdentifierEnd_input (l : LexerImpl) :
    (readIdentifierEnd l).input = l.input := by
  induction l using readIdentifierEnd.induct with
  | case1 l hw ih =>
    rw [readIdentifierEnd, if_pos hw]
    simpa [readChar] using ih
  | case2 l hw =>
    rw [readIdentifierEnd, if_neg hw]

theorem readNumberEnd_input (l : LexerImpl) :
    (readNumberEnd l).input = l.input := by
  induction l using readNumberEnd.induct with
  | case1 l hw ih =>
    rw [readNumberEnd, if_pos hw]
    simpa [readChar] using ih
  | case2 l hw =>
    rw [readNumberEnd, if_neg hw]

theorem nextTokenAt_input (l : LexerImpl) :
    (nextTokenAt l).2.input = l.input := by
  rw [nextTokenAt]
  by_cases h61 : ch l = 61
  · by_cases hp : peekChar l = 61 <;> simp [h61, hp, readChar]
  · by_cases h33 : ch l = 33
    · by_cases hp : peekChar l = 61 <;> simp [h61, h33, hp, readChar]
    · by_cases h0 : ch l = 0
      · simp [h61, h33, h0, readChar]
      · cases hsc : singleCharToken (ch l) with
        | some t => simp [h61, h33, h0, hsc, readChar]
        | none =>
          by_cases hl : isLetter (ch l)
          · simp only [h61, h33, h0, hsc, hl, if_neg, if_pos, if_false, if_true]
            simp [readIdentifier, readIdentifierEnd_input]
          · by_cases hd : isDigit (ch l)
            · simp only [h61, h33, h0, hsc, hl, hd, if_neg, if_pos, if_false, if_true]
              simp [readNumber, readNumberEnd_input]
            · simp [h61, h33, h0, hsc, hl, hd, readChar]

theorem nextToken_input (l : LexerImpl) :
    (nextToken l).2.input = l.input := by
  rw [nextToken, nextTokenAt_input, skipWhitespace_input]

theorem nextToken_pos_gt (l : LexerImpl) :
    l.position < (nextToken l).2.position := by
  rw [nextToken]
  exact lt_of_le_of_lt (skipWhitespace_pos_ge l) (nextTokenAt_pos_gt _)

theorem ch_of_exhausted (l : LexerImpl) (h : l.input.length ≤ l.position) :
    ch l = 0 := by
  simp only [ch]
  exact List.getD_eq_default _ _ h

theorem nextToken_eof (l : LexerImpl) (h : l.input.length ≤ l.position) :
    (nextToken l).1.typ = "EOF" := by
  have h0 : ch l = 0 := ch_of_exhausted l h
  have hsw : skipWhitespace l = l :=
    skipWhitespace_eq_self l (by simp [h0, isWhitespaceCh])
  rw [nextToken, hsw, nextTokenAt]
  simp [h0]

theorem iterateLexer_input (n : Nat) (l : LexerImpl) :
    (iterateLexer n l).input = l.input := by
  induction n generalizing l with
  | zero => rfl
  | succ n ih =>
    rw [iterateLexer, ih, nextToken_input]

theorem iterateLexer_pos (n : Nat) (l : LexerImpl) :
    l.position + n ≤ (iterateLexer n l).position := by
  induction n generalizing l with
  | zero => simp [iterateLexer]
  | succ n ih =>
    rw [iterateLexer]
    have h1 := nextToken_pos_gt l
    have h2 := ih (nextToken l).2
    omega

/-- C8: at any lexer state whose current character is not skippable
whitespace, not one of the recognised operator or delimiter characters,
not end of input, not a letter or underscore, and not a digit, `NextToken`
returns an ILLEGAL token whose literal is exactly that single byte (and
lexing never fails: `nextToken` is a total function). -/
theorem nextToken_illegal_byte (l : LexerImpl)
    (hws : isWhitespaceCh (ch l) = false)
    (h61 : ch l ≠ 61) (h33 : ch l ≠ 33)
    (hop : singleCharToken (ch l) = none)
    (h0 : ch l ≠ 0)
    (hletter : isLetter (ch l) = false)
    (hdigit : isDigit (ch l) = false) :
    (nextToken l).1 = ⟨"ILLEGAL", [ch l]⟩ := by
  rw [nextToken, skipWhitespace_eq_self l hws, nextTokenAt]
  simp [h61, h33, h0, hop, hletter, hdigit]

/-- Witness for C8: the byte `@` (64) is unrecognised and lexes to a
single-byte ILLEGAL token. -/
theorem nextToken_illegal_byte_witness :
    (nextToken ⟨[64], 0⟩).1 = ⟨"ILLEGAL", [64]⟩ :=
  nextToken_illegal_byte ⟨[64], 0⟩ (by decide) (by decide) (by decide)
    (by decide) (by decide) (by decide) (by decide)

/-- C9: every call to `NextToken` strictly advances the cursor, and for
every finite input the token stream reaches an explicit EOF token after
finitely many calls: token number `input.length` (0-indexed) is already
EOF. -/
theorem nextToken_terminates :
    (∀ l : LexerImpl, l.position < (nextToken l).2.position) ∧
      (∀ input : List Nat, (nthToken (newLexer input) input.length).typ = "EOF") := by
  refine ⟨nextToken_pos_gt, fun input => ?_⟩
  rw [nthToken]
  apply nextToken_eof
  have h1 := iterateLexer_pos input.length (newLexer input)
  have h2 := iterateLexer_input input.length (newLexer input)
  rw [h2]
  simp only [newLexer] at h1 ⊢
  omega

end GolemLexer

/-! ### Truthiness: claim C5 -/

namespace Golem

theorem evalBang_characterization (o : Obj) :
    evalBangOperatorExpression (some o) =
      if goEq o NULL || goEq o FALSE then TRUE else FALSE := by
  cases o with
  | nullO r =>
    by_cases h : r = 2 <;>
      simp [evalBangOperatorExpression, goEq, objType, refOf, TRUE, FALSE, NULL, h]
  | boolean r b =>
    by_cases h0 : r = 0
    · subst h0
      simp [evalBangOperatorExpression, goEq, objType, refOf, TRUE, FALSE, NULL]
    · by_cases h1 : r = 1
      · subst h1
        simp [evalBangOperatorExpression, goEq, objType, refOf, TRUE, FALSE, NULL]
      · simp [evalBangOperatorExpression, goEq, objType, refOf, TRUE, FALSE, NULL, h0, h1]
  | errorO r m =>
    simp [evalBangOperatorExpression, goEq, objType, refOf, TRUE, FALSE, NULL]
  | integer r v =>
    simp [evalBangOperatorExpression, goEq, objType, refOf, TRUE, FALSE, NULL]
  | stringO r s =>
    simp [evalBangOperatorExpression, goEq, objType, refOf, TRUE, FALSE, NULL]
  | returnValue r v =>
    simp [evalBangOperatorExpression, goEq, objType, refOf, TRUE, FALSE, NULL]
  | functionO r ps bd e =>
    simp [evalBangOperatorExpression, goEq, objType, refOf, TRUE, FALSE, NULL]
  | builtinO r n =>
    simp [evalBangOperatorExpression, goEq, objType, refOf, TRUE, FALSE, NULL]
  | arrayO r els =>
    simp [evalBangOperatorExpression, goEq, objType, refOf, TRUE, FALSE, NULL]
  | hashO r prs =>
    simp [evalBangOperatorExpression, goEq, objType, refOf, TRUE, FALSE, NULL]

theorem isTruthy_characterization (o : Obj) :
    isTruthy (some o) = !(goEq o NULL || goEq o FALSE) := by
  cases o with
  | nullO r =>
    by_cases h : r = 2 <;>
      simp [isTruthy, goEq, objType, refOf, TRUE, FALSE, NULL, h]
  | boolean r b =>
    by_cases h0 : r = 0
    · subst h0
      simp [isTruthy, goEq, objType, refOf, TRUE, FALSE, NULL]
    · by_cases h1 : r = 1
      · subst h1
        simp [isTruthy, goEq, objType, refOf, TRUE, FALSE, NULL]
      · simp [isTruthy, goEq, objType, refOf, TRUE, FALSE, NULL, h0, h1]
  | errorO r m => simp [isTruthy, goEq, objType, refOf, TRUE, FALSE, NULL]
  | integer r v => simp [isTruthy, goEq, objType, refOf, TRUE, FALSE, NULL]
  | stringO r s => simp [isTruthy, goEq, objType, refOf, TRUE, FALSE, NULL]
  | returnValue r v => simp [isTruthy, goEq, objType, refOf, TRUE, FALSE, NULL]
  | functionO r ps bd e => simp [isTruthy, goEq, objType, refOf, TRUE, FALSE, NULL]
  | builtinO r n => simp [isTruthy, goEq, objType, refOf, TRUE, FALSE, NULL]
  | arrayO r els => simp [isTruthy, goEq, objType, refOf, TRUE, FALSE, NULL]
  | hashO r prs => simp [isTruthy, goEq, objType, refOf, TRUE, FALSE, NULL]

end Golem

namespace Golem

/-- C5: for every runtime value, the prefix `!` evaluates to the TRUE
singleton exactly when the operand is the NULL singleton or the FALSE
singleton, and to the FALSE singleton for every other value (including
integer 0 and the empty string); `isTruthy`, which selects the branch of
an `if` expression, is the negation of the same condition; and the spec
examples `!true` → false, `!false` → true, `!5` → false, `!null` → true,
`!""` → false evaluate accordingly, with integer `0` selecting the truthy
branch of an `if` and `false` selecting the alternative (NULL when
absent). -/
theorem bang_truthiness :
    (∀ o : Obj, evalBangOperatorExpression (some o) =
      if goEq o NULL || goEq o FALSE then TRUE else FALSE) ∧
    (∀ o : Obj, isTruthy (some o) = !(goEq o NULL || goEq o FALSE)) ∧
    resultIsFalse (evalProgram 100 bangTrueProgram rootEnv initialSt).1 = true ∧
    resultIsTrue (evalProgram 100 bangFalseProgram rootEnv initialSt).1 = true ∧
    resultIsFalse (evalProgram 100 bangFiveProgram rootEnv initialSt).1 = true ∧
    resultIsTrue (evalProgram 100 bangNullProgram rootEnv initialSt).1 = true ∧
    resultIsFalse (evalProgram 100 bangEmptyStrProgram rootEnv initialSt).1 = true ∧
    resultIsInt (evalProgram 100 ifZeroProgram rootEnv initialSt).1 10 = true ∧
    resultIsNull (evalProgram 100 ifFalseProgram rootEnv initialSt).1 = true :=
  ⟨evalBang_characterization, isTruthy_characterization, by decide, by decide,
    by decide, by decide, by decide, by decide, by decide⟩

end Golem

/-! ### Array indexing and the plus operator: claims C6 and C7 -/

namespace Golem

/-- C6: indexing an Array object with an Integer index returns the i-th
element when the index is within `[0, len-1]` and the NULL singleton (not
an Error) otherwise; the spec example `[1, 2, 3][5]` evaluates to NULL
and `[1, 2, 3][1]` to Integer(2). -/
theorem array_index_bounds :
    (∀ (r ri : Nat) (elements : List (Option Obj)) (idx : Int) (st : St),
      (0 ≤ idx → idx ≤ (elements.length : Int) - 1 →
        evalArrayIndexExpression (some (.arrayO r elements)) (some (.integer ri idx)) st =
          (.val (elements.getD idx.toNat none), st)) ∧
      (idx < 0 ∨ idx > (elements.length : Int) - 1 →
        evalArrayIndexExpression (some (.arrayO r elements)) (some (.integer ri idx)) st =
          (.val (some NULL), st))) ∧
    resultIsNull (evalProgram 100 arrayOutOfRangeProgram rootEnv initialSt).1 = true ∧
    resultIsInt (evalProgram 100 arrayInRangeProgram rootEnv initialSt).1 2 = true := by
  refine ⟨fun r ri elements idx st => ⟨fun h0 h1 => ?_, fun h => ?_⟩, by decide, by decide⟩
  · rw [evalArrayIndexExpression, if_neg]
    omega
  · rw [evalArrayIndexExpression, if_pos h]

/-- Witness for C6: indexing `[TRUE]` at 0 yields the element, and at 7
yields NULL. -/
theorem array_index_bounds_witness :
    evalArrayIndexExpression (some (.arrayO 9 [some TRUE])) (some (.integer 10 0)) initialSt =
      (.val (some TRUE), initialSt) ∧
    evalArrayIndexExpression (some (.arrayO 9 [some TRUE])) (some (.integer 10 7)) initialSt =
      (.val (some NULL), initialSt) :=
  ⟨(array_index_bounds.1 9 10 [some TRUE] 0 initialSt).1 (by decide) (by decide),
   (array_index_bounds.1 9 10 [some TRUE] 7 initialSt).2 (by decide)⟩

theorem evalStringInfix_mismatch (lo ro : Obj) (st : St)
    (h : ¬(objType lo = "STRING" ∧ objType ro = "STRING")) :
    evalStringInfixExpression lo ro st =
      newError ("type mismatch: " ++ objType lo ++ " + " ++ objType ro) st := by
  have hc : objType lo ≠ "STRING" ∨ objType ro ≠ "STRING" := by tauto
  rw [evalStringInfixExpression, if_pos hc]
  rintro ref lv ref1 rv h1 h2
  subst h1
  subst h2
  exact h ⟨rfl, rfl⟩

/-- C7: on two String operands, infix `+` concatenates (allocating a
fresh String); if exactly one operand is a String, the result is a
type-mismatch Error naming both operand types; and the spec examples
`5 + 3` → Integer(8), `"a" + "b"` → String("ab"),
`5 + "b"` → type-mismatch Error evaluate accordingly. -/
theorem plus_operator_spec :
    (∀ (r1 r2 : Nat) (s1 s2 : String) (st : St),
      evalInfixExpression "+" (some (.stringO r1 s1)) (some (.stringO r2 s2)) st =
        (.val (some (.stringO st.nextRef (s1 ++ s2))), { st with nextRef := st.nextRef + 1 })) ∧
    (∀ (lo ro : Obj) (st : St),
      (objType lo = "STRING" ∨ objType ro = "STRING") →
      ¬(objType lo = "STRING" ∧ objType ro = "STRING") →
      evalInfixExpression "+" (some lo) (some ro) st =
        newError ("type mismatch: " ++ objType lo ++ " + " ++ objType ro) st) ∧
    resultIsInt (evalProgram 100 intAddProgram rootEnv initialSt).1 8 = true ∧
    resultIsString (evalProgram 100 strConcatProgram rootEnv initialSt).1 "ab" = true ∧
    resultIsError (evalProgram 100 intStrAddProgram rootEnv initialSt).1
      "type mismatch: INTEGER + STRING" = true := by
  refine ⟨fun r1 r2 s1 s2 st => ?_, fun lo ro st h1 h2 => ?_, by decide, by decide, by decide⟩
  · rw [evalInfixExpression]
    simp [objType, evalStringInfixExpression, alloc]
  · have hni : ¬(objType lo = "INTEGER" ∧ objType ro = "INTEGER") := by
      rcases h1 with h | h <;> simp [h]
    rw [evalInfixExpression, if_neg hni, if_pos rfl]
    exact evalStringInfix_mismatch lo ro st h2

/-- Witness for C7: `TRUE + "x"` is a type-mismatch Error. -/
theorem plus_operator_spec_witness :
    evalInfixExpression "+" (some TRUE) (some (.stringO 9 "x")) initialSt =
      newError "type mismatch: BOOLEAN + STRING" initialSt :=
  plus_operator_spec.2.1 TRUE (.stringO 9 "x") initialSt (by decide) (by decide)

end Golem

/-! ### Function application and closures: claim C1 -/

/-- C1 (code bug): on the closure program
`let makeAdder = fn(x) \x7b fn(y) \x7b x + y \x7d \x7d; let addFive = makeAdder(5);
addFive(3)`, the golemjs interpreter — whose `applyFunction` computes the
extended environment but evaluates the function body with `i.Eval`, i.e.
in the caller's current environment (the unused `extendedEnv` variable is
also a Go compile error) — produces the Error "identifier not found: x",
while the sibling interpreter (`internal/interpreter/interpreter.go`),
whose `applyFunction` evaluates the body in the new child of the
function's captured environment, produces Integer(8) as the claim
states. -/
theorem closure_env_code_bug :
    Golem.resultIsError
      (Golem.evalProgram 100 Golem.closureProgram Golem.rootEnv Golem.initialSt).1
      "identifier not found: x" = true ∧
    Golem.resultIsInt
      (MInterp.evalProgram 100 Golem.closureProgram Golem.rootEnv MInterp.initialSt).1
      8 = true :=
  ⟨by decide, by decide⟩

/-! ### Hash literals and hash indexing: claim C2 -/

namespace Golem

/-- C2: indexing a Hash with a Hashable index (Integer, String or
Boolean — exactly the kinds `hashKeyOfObj` accepts) returns the stored
value when the key is present and the NULL singleton when it is absent;
a non-Hashable index yields the Error "unusable as hash key: \x7btype\x7d".
Hash literals with Hashable keys store each pair: the spec examples
`\x7b"a": 1\x7d["a"]` → Integer(1), `\x7b"a": 1\x7d["b"]` → NULL evaluate
accordingly, as does the two-pair literal lookup
`\x7b"a": 1, "b": 2\x7d["b"]` → Integer(2) and the Function-indexed
`\x7b"a": 1\x7d[fn(x) \x7b x \x7d]` → Error. -/
theorem hash_index_spec :
    (∀ (o : Obj), (hashKeyOfObj o).isSome = true ↔
      (objType o = "INTEGER" ∨ objType o = "STRING" ∨ objType o = "BOOLEAN")) ∧
    (∀ (r : Nat) (pairs : List (HashKey × Option Obj × Option Obj)) (io : Obj)
        (k : HashKey) (st : St), hashKeyOfObj io = some k →
      (∀ kv vv, pairsGet pairs k = some (kv, vv) →
        evalHashIndexExpression (some (.hashO r pairs)) (some io) st = (.val vv, st)) ∧
      (pairsGet pairs k = none →
        evalHashIndexExpression (some (.hashO r pairs)) (some io) st =
          (.val (some NULL), st))) ∧
    (∀ (r : Nat) (pairs : List (HashKey × Option Obj × Option Obj)) (io : Obj)
        (st : St), hashKeyOfObj io = none →
      evalHashIndexExpression (some (.hashO r pairs)) (some io) st =
        newError ("unusable as hash key: " ++ objType io) st) ∧
    resultIsInt (evalProgram 100 hashHitProgram rootEnv initialSt).1 1 = true ∧
    resultIsNull (evalProgram 100 hashMissProgram rootEnv initialSt).1 = true ∧
    resultIsInt (evalProgram 100 hashSecondProgram rootEnv initialSt).1 2 = true ∧
    resultIsError (evalProgram 100 hashFnKeyProgram rootEnv initialSt).1
      "unusable as hash key: FUNCTION" = true := by
  refine ⟨fun o => ?_, fun r pairs io k st hk => ⟨fun kv vv hget => ?_, fun hget => ?_⟩,
    fun r pairs io st hk => ?_, by decide, by decide, by decide, by decide⟩
  · cases o <;> simp [hashKeyOfObj, objType]
  · simp [evalHashIndexExpression, hk, hget]
  · simp [evalHashIndexExpression, hk, hget]
  · simp [evalHashIndexExpression, hk]

/-- Witness for C2: a String key is Hashable; on the one-pair map
`("a" ↦ TRUE)` the key `"a"` hits and the key `"b"` misses; an Array
index is rejected. -/
theorem hash_index_spec_witness :
    evalHashIndexExpression
      (some (.hashO 9 [(.stringKey "a", some (.stringO 10 "a"), some TRUE)]))
      (some (.stringO 11 "a")) initialSt = (.val (some TRUE), initialSt) ∧
    evalHashIndexExpression
      (some (.hashO 9 [(.stringKey "a", some (.stringO 10 "a"), some TRUE)]))
      (some (.stringO 11 "b")) initialSt = (.val (some NULL), initialSt) ∧
    evalHashIndexExpression (some (.hashO 9 [])) (some (.arrayO 12 [])) initialSt =
      newError "unusable as hash key: ARRAY" initialSt :=
  ⟨(hash_index_spec.2.1 9 [(.stringKey "a", some (.stringO 10 "a"), some TRUE)]
      (.stringO 11 "a") (.stringKey "a") initialSt rfl).1 (some (.stringO 10 "a"))
      (some TRUE) rfl,
   (hash_index_spec.2.1 9 [(.stringKey "a", some (.stringO 10 "a"), some TRUE)]
      (.stringO 11 "b") (.stringKey "b") initialSt rfl).2 rfl,
   hash_index_spec.2.2.1 9 [] (.arrayO 12 []) initialSt rfl⟩

end Golem

/-! ### Panics versus Error objects: claim C3 -/

namespace Golem

/-- C3 (counterexample): indexing an Array with a String index —
`[1, 2, 3]["a"]` — does not produce an Error object but a Go runtime
fault: the unchecked `index.(*Integer)` type assertion in
`evalArrayIndexExpression` panics, contradicting the claim that this
case yields an Error result and never a panic. -/
theorem array_index_panic_counterexample :
    resultIsPanic (evalProgram 100 arrayStringIndexProgram rootEnv initialSt).1
      .typeAssertFail = true ∧
    resIsErrorAny (evalProgram 100 arrayStringIndexProgram rootEnv initialSt).1 = false :=
  ⟨by decide, by decide⟩

/-- C3 (amended): besides integer division by zero and call-stack
overflow, two further user-triggered conditions escape as host-level
faults rather than Error objects: indexing an Array with a non-Integer
index (the unchecked `index.(*Integer)` assertion) and applying a
user-defined Function to fewer arguments than it has parameters (the
out-of-range `args[paramIdx]` access).  The failures of the error
taxonomy do come back as Error objects: unknown prefix operator
(`-true`), type mismatch (`true + 5`), unresolved identifier (`foo`),
calling a non-function (`5(3)`), a non-Hashable hash key
(`\x7b"a": 1\x7d[fn(x) \x7b x \x7d]`), builtin arity misuse (`len(1, 2)`), and
an unsupported index target (`5[0]`). -/
theorem error_taxonomy_amended :
    resultIsPanic (evalProgram 100 arrayStringIndexProgram rootEnv initialSt).1
      .typeAssertFail = true ∧
    resultIsPanic (evalProgram 100 arityMismatchProgram rootEnv initialSt).1
      .indexOutOfRange = true ∧
    resultIsPanic (evalProgram 100 divZeroProgram rootEnv initialSt).1
      .divByZero = true ∧
    resultIsError (evalProgram 100 minusTrueProgram rootEnv initialSt).1
      "unknown operator: -BOOLEAN" = true ∧
    resultIsError (evalProgram 100 boolPlusIntProgram rootEnv initialSt).1
      "type mismatch: BOOLEAN + INTEGER" = true ∧
    resultIsError (evalProgram 100 unboundIdentProgram rootEnv initialSt).1
      "identifier not found: foo" = true ∧
    resultIsError (evalProgram 100 callNonFunctionProgram rootEnv initialSt).1
      "not a function: INTEGER" = true ∧
    resultIsError (evalProgram 100 hashFnKeyProgram rootEnv initialSt).1
      "unusable as hash key: FUNCTION" = true ∧
    resultIsError (evalProgram 100 lenTwoArgsProgram rootEnv initialSt).1
      "wrong number of arguments. got=2, want=1" = true ∧
    resultIsError (evalProgram 100 indexIntProgram rootEnv initialSt).1
      "index operator not supported: INTEGER" = true :=
  ⟨by decide, by decide, by decide, by decide, by decide, by decide, by decide,
    by decide, by decide, by decide⟩

end Golem


/-! ### Signal propagation: claim C4 -/

namespace Golem

theorem blockSignal_append (xs : List Stmt) :
    ∀ (ys : List Stmt) (fuel env : Nat) (st st1 : St) (v : Obj),
      evalBlockStatement fuel xs env st = (.val (some v), st1) →
      signalObj v = true →
      evalBlockStatement fuel (xs ++ ys) env st = (.val (some v), st1) := by
  induction xs with
  | nil =>
    intro ys fuel env st st1 v h hs
    match fuel with
    | 0 => simp [evalBlockStatement] at h
    | fuel + 1 => simp [evalBlockStatement] at h
  | cons s rest ih =>
    intro ys fuel env st st1 v h hs
    match fuel with
    | 0 => simp [evalBlockStatement] at h
    | fuel + 1 =>
      rw [List.cons_append]
      rw [evalBlockStatement] at h ⊢
      rcases hstmt : evalStmt fuel s env st with ⟨r, st2⟩
      rw [hstmt] at h
      rcases r with v2 | k | _
      · rcases v2 with _ | o
        · simp only at h ⊢
          rcases rest with _ | ⟨s2, rest2⟩
          · simp at h
          · simp only [List.isEmpty_cons] at h ⊢
            simp only [Bool.false_eq_true, if_false] at h ⊢
            exact ih ys fuel env st2 st1 v h hs
        · simp only at h ⊢
          by_cases hsig : objType o = "RETURN_VALUE" ∨ objType o = "ERROR"
          · rw [if_pos hsig] at h ⊢
            exact h
          · rw [if_neg hsig] at h ⊢
            rcases rest with _ | ⟨s2, rest2⟩
            · simp at h
              rcases h with ⟨h1, _⟩
              subst h1
              simp [signalObj] at hs
              tauto
            · simp only [List.isEmpty_cons] at h ⊢
              simp only [Bool.false_eq_true, if_false] at h ⊢
              exact ih ys fuel env st2 st1 v h hs
      · simp at h
      · simp at h

end Golem

namespace Golem

theorem programError_append (xs : List Stmt) :
    ∀ (ys : List Stmt) (fuel env : Nat) (st st1 : St) (r : Nat) (m : String),
      evalProgram fuel xs env st = (.val (some (.errorO r m)), st1) →
      evalProgram fuel (xs ++ ys) env st = (.val (some (.errorO r m)), st1) := by
  induction xs with
  | nil =>
    intro ys fuel env st st1 r m h
    match fuel with
    | 0 => simp [evalProgram] at h
    | fuel + 1 => simp [evalProgram] at h
  | cons s rest ih =>
    intro ys fuel env st st1 r m h
    match fuel with
    | 0 => simp [evalProgram] at h
    | fuel + 1 =>
      rw [List.cons_append]
      rw [evalProgram] at h ⊢
      rcases hstmt : evalStmt fuel s env st with ⟨r2, st2⟩
      rw [hstmt] at h
      rcases r2 with v2 | k | _
      · rcases v2 with _ | o
        · simp only at h ⊢
          rcases rest with _ | ⟨s2, rest2⟩
          · simp at h
          · simp only [List.isEmpty_cons] at h ⊢
            simp only [Bool.false_eq_true, if_false] at h ⊢
            exact ih ys fuel env st2 st1 r m h
        · cases o
          case returnValue rr inner => exact h
          case errorO rr mm => exact h
          all_goals
            (dsimp only at h ⊢
             rcases rest with _ | ⟨s2, rest2⟩
             · simp at h
             · simp only [List.isEmpty_cons, Bool.false_eq_true, if_false] at h ⊢
               exact ih ys fuel env st2 st1 r m h)
      · simp at h
      · simp at h

end Golem

namespace Golem

theorem programReturn_unwrap (fuel : Nat) (s : Stmt) (rest : List Stmt)
    (env : Nat) (st st1 : St) (r : Nat) (inner : Option Obj)
    (h : evalStmt fuel s env st = (.val (some (.returnValue r inner)), st1)) :
    evalProgram (fuel + 1) (s :: rest) env st = (.val inner, st1) := by
  rw [evalProgram, h]

theorem applyFunction_unwrap (fuel : Nat) (fr : Nat) (params : List String)
    (body : List Stmt) (fnEnv : Nat) (args : List (Option Obj)) (env : Nat)
    (st st1 st2 : St) (eref : Nat) (v : Option Obj)
    (hext : extendFunctionEnv params fnEnv args st = (.ok eref, st1))
    (hbody : evalBlockStatement fuel body env st1 = (.val v, st2)) :
    applyFunction (fuel + 1) (some (.functionO fr params body fnEnv)) args env st =
      (.val (unwrapReturnValue v), st2) := by
  rw [applyFunction, hext]
  dsimp only
  rw [hbody]

theorem unwrap_escape (v : Option Obj) (h : isReturnOpt (unwrapReturnValue v) = true) :
    doubleWrapped v = true := by
  rcases v with _ | o
  · simp [unwrapReturnValue, isReturnOpt] at h
  · cases o
    case returnValue r inner =>
      rcases inner with _ | io
      · simp [unwrapReturnValue, isReturnOpt] at h
      · cases io <;> simp [unwrapReturnValue, isReturnOpt, doubleWrapped] at h ⊢
    all_goals simp [unwrapReturnValue, isReturnOpt, doubleWrapped] at h ⊢

/-- C4 (amended): statements are evaluated in order and the first Error
or ReturnValue aborts the remaining statements; a BlockStatement returns
the signal as-is (appending further statements after the signal does not
change the result); a Program returns an Error as-is but unwraps a
ReturnValue by one layer, so unwrapping is not exclusive to the
function-application boundary; function application unwraps exactly one
ReturnValue layer, and a raw ReturnValue survives the unwrap only when
the body's result was doubly wrapped (a return whose expression itself
evaluated to a ReturnValue), in which case it does escape the completed
call — as the program
`fn() \x7b return if (true) \x7b return 5; \x7d; \x7d () + 1` shows by hitting a
RETURN_VALUE type-mismatch error. -/
theorem signal_propagation_amended :
    (∀ (xs ys : List Stmt) (fuel env : Nat) (st st1 : St) (v : Obj),
      evalBlockStatement fuel xs env st = (.val (some v), st1) →
      signalObj v = true →
      evalBlockStatement fuel (xs ++ ys) env st = (.val (some v), st1)) ∧
    (∀ (xs ys : List Stmt) (fuel env : Nat) (st st1 : St) (r : Nat) (m : String),
      evalProgram fuel xs env st = (.val (some (.errorO r m)), st1) →
      evalProgram fuel (xs ++ ys) env st = (.val (some (.errorO r m)), st1)) ∧
    (∀ (fuel : Nat) (s : Stmt) (rest : List Stmt) (env : Nat) (st st1 : St)
        (r : Nat) (inner : Option Obj),
      evalStmt fuel s env st = (.val (some (.returnValue r inner)), st1) →
      evalProgram (fuel + 1) (s :: rest) env st = (.val inner, st1)) ∧
    (∀ (fuel fr : Nat) (params : List String) (body : List Stmt) (fnEnv : Nat)
        (args : List (Option Obj)) (env : Nat) (st st1 st2 : St) (eref : Nat)
        (v : Option Obj),
      extendFunctionEnv params fnEnv args st = (.ok eref, st1) →
      evalBlockStatement fuel body env st1 = (.val v, st2) →
      applyFunction (fuel + 1) (some (.functionO fr params body fnEnv)) args env st =
        (.val (unwrapReturnValue v), st2)) ∧
    (∀ (rr : Nat) (vv : Option Obj),
      unwrapReturnValue (some (.returnValue rr vv)) = vv) ∧
    (∀ v : Option Obj, isReturnOpt (unwrapReturnValue v) = true → doubleWrapped v = true) ∧
    resultIsError (evalProgram 100 doubleWrapProgram rootEnv initialSt).1
      "type mismatch: RETURN_VALUE + INTEGER" = true :=
  ⟨fun xs ys fuel env st st1 v => blockSignal_append xs ys fuel env st st1 v,
   fun xs ys fuel env st st1 r m => programError_append xs ys fuel env st st1 r m,
   programReturn_unwrap, applyFunction_unwrap, fun _ _ => rfl, unwrap_escape, by decide⟩

/-- Witness for C4: a singleton block `[return 1;]` yields a ReturnValue
signal; appending a further statement leaves the block's result
unchanged; the same signal makes the two-statement program evaluate to
the unwrapped Integer; and unwrapping strips exactly one wrapper. -/
theorem signal_propagation_amended_witness :
    evalBlockStatement 3 ([.returnStatement none] ++ [.expressionStatement (.integerLiteral 2)])
        rootEnv initialSt =
      (.val (some (.returnValue 9 none)), ⟨[⟨[], none⟩], 10⟩) ∧
    evalProgram 3 ([.returnStatement none] ++ [.expressionStatement (.integerLiteral 2)])
        rootEnv initialSt =
      (.val none, ⟨[⟨[], none⟩], 10⟩) ∧
    unwrapReturnValue (some (.returnValue 9 none)) = none :=
  ⟨signal_propagation_amended.1 [.returnStatement none]
      [.expressionStatement (.integerLiteral 2)] 3 rootEnv initialSt
      ⟨[⟨[], none⟩], 10⟩ (.returnValue 9 none) rfl rfl,
   signal_propagation_amended.2.2.1 2 (.returnStatement none)
      [.expressionStatement (.integerLiteral 2)] rootEnv initialSt
      ⟨[⟨[], none⟩], 10⟩ 9 none rfl,
   signal_propagation_amended.2.2.2.2.1 9 none⟩

end Golem

/-! ### The singleton invariant: claim C10 -/

namespace Golem

theorem wfOptList_getD (l : List (Option Obj)) (i : Nat) (h : wfOptList l = true) :
    wfOpt (l.getD i none) = true := by
  induction l generalizing i with
  | nil => simp [List.getD, wfOpt]
  | cons a rest ih =>
    rw [wfOptList] at h
    rcases Bool.and_eq_true_iff.mp h with ⟨h1, h2⟩
    match i with
    | 0 => simpa [List.getD] using h1
    | i + 1 => simpa [List.getD] using ih (i := i) h2

theorem wfOptList_append (a b : List (Option Obj)) (ha : wfOptList a = true)
    (hb : wfOptList b = true) : wfOptList (a ++ b) = true := by
  induction a with
  | nil => simpa using hb
  | cons x rest ih =>
    rw [wfOptList] at ha
    rcases Bool.and_eq_true_iff.mp ha with ⟨h1, h2⟩
    rw [List.cons_append, wfOptList, h1, ih h2]
    rfl

theorem wfOptList_drop (l : List (Option Obj)) (n : Nat) (h : wfOptList l = true) :
    wfOptList (l.drop n) = true := by
  induction l generalizing n with
  | nil => simpa using h
  | cons a rest ih =>
    rw [wfOptList] at h
    rcases Bool.and_eq_true_iff.mp h with ⟨h1, h2⟩
    match n with
    | 0 => rw [List.drop, wfOptList, h1, h2]; rfl
    | n + 1 => simpa [List.drop] using ih (n := n) h2

theorem storeGet_wf (s : List (String × Option Obj)) (name : String)
    (v : Option Obj) (hs : wfStore s = true) (h : storeGet s name = some v) :
    wfOpt v = true := by
  induction s with
  | nil => simp [storeGet] at h
  | cons p rest ih =>
    rcases p with ⟨k, w⟩
    rw [wfStore] at hs
    rcases Bool.and_eq_true_iff.mp hs with ⟨h1, h2⟩
    rw [storeGet] at h
    by_cases hk : k = name
    · rw [if_pos hk] at h
      cases h
      exact h1
    · rw [if_neg hk] at h
      exact ih h2 h

theorem storeSet_wf (s : List (String × Option Obj)) (name : String)
    (v : Option Obj) (hs : wfStore s = true) (hv : wfOpt v = true) :
    wfStore (storeSet s name v) = true := by
  induction s with
  | nil => simp [storeSet, wfStore, hv]
  | cons p rest ih =>
    rcases p with ⟨k, w⟩
    rw [wfStore] at hs
    rcases Bool.and_eq_true_iff.mp hs with ⟨h1, h2⟩
    rw [storeSet]
    by_cases hk : k = name
    · rw [if_pos hk, wfStore, hv, h2]
      rfl
    · rw [if_neg hk, wfStore, h1, ih h2]
      rfl

theorem framesGet_wf (fs : List Frame) (i : Nat) (f : Frame)
    (hf : wfFrames fs = true) (h : fs[i]? = some f) : wfStore f.store = true := by
  induction fs generalizing i with
  | nil => simp at h
  | cons g rest ih =>
    rw [wfFrames] at hf
    rcases Bool.and_eq_true_iff.mp hf with ⟨h1, h2⟩
    match i with
    | 0 =>
      simp at h
      cases h
      exact h1
    | i + 1 =>
      simp at h
      exact ih (i := i) h2 (by simpa using h)

theorem framesSet_wf (fs : List Frame) (i : Nat) (f : Frame)
    (hf : wfFrames fs = true) (hs : wfStore f.store = true) :
    wfFrames (fs.set i f) = true := by
  induction fs generalizing i with
  | nil => simpa using hf
  | cons g rest ih =>
    rw [wfFrames] at hf
    rcases Bool.and_eq_true_iff.mp hf with ⟨h1, h2⟩
    match i with
    | 0 => rw [List.set, wfFrames, hs, h2]; rfl
    | i + 1 =>
      rw [List.set, wfFrames, h1, ih (i := i) h2]
      rfl

theorem wfFrames_append (a b : List Frame) (ha : wfFrames a = true)
    (hb : wfFrames b = true) : wfFrames (a ++ b) = true := by
  induction a with
  | nil => simpa using hb
  | cons g rest ih =>
    rw [wfFrames] at ha
    rcases Bool.and_eq_true_iff.mp ha with ⟨h1, h2⟩
    rw [List.cons_append, wfFrames, h1, ih h2]
    rfl

theorem envGetAux_wf (fuel : Nat) (fs : List Frame) (ref : Nat) (name : String)
    (v : Option Obj) (hf : wfFrames fs = true)
    (h : envGetAux fuel fs ref name = some v) : wfOpt v = true := by
  induction fuel generalizing ref with
  | zero => simp [envGetAux] at h
  | succ fuel ih =>
    rw [envGetAux] at h
    rcases hg : fs[ref]? with _ | f
    · rw [hg] at h
      simp at h
    · rw [hg] at h
      dsimp only at h
      rcases hsg : storeGet f.store name with _ | w
      · rw [hsg] at h
        dsimp only at h
        rcases ho : f.outer with _ | o
        · rw [ho] at h
          simp at h
        · rw [ho] at h
          exact ih o h
      · rw [hsg] at h
        cases h
        exact storeGet_wf f.store name _ (framesGet_wf fs ref f hf hg) hsg

theorem envGet_wf (st : St) (ref : Nat) (name : String) (v : Option Obj)
    (hst : wfSt st = true) (h : envGet st ref name = some v) : wfOpt v = true :=
  envGetAux_wf _ _ _ _ _ hst h

theorem envSet_wf (st : St) (ref : Nat) (name : String) (v : Option Obj)
    (hst : wfSt st = true) (hv : wfOpt v = true) :
    wfSt (envSet st ref name v) = true := by
  rw [envSet]
  rcases hg : st.frames[ref]? with _ | f
  · exact hst
  · rw [wfSt]
    exact framesSet_wf _ _ _ hst (storeSet_wf _ _ _ (framesGet_wf _ _ _ hst hg) hv)

theorem alloc_wf (st : St) (hst : wfSt st = true) : wfSt (alloc st).2 = true := hst

theorem newEnvironment_wf (st : St) (outer : Option Nat) (hst : wfSt st = true) :
    wfSt (newEnvironment st outer).2 = true := by
  rw [newEnvironment, wfSt]
  exact wfFrames_append _ _ hst (by rfl)

end Golem

namespace Golem

theorem newError_wf (msg : String) (st : St) (hst : wfSt st = true) :
    wfRes (newError msg st).1 = true ∧ wfSt (newError msg st).2 = true :=
  ⟨rfl, hst⟩

theorem nativeBool_wf (b : Bool) : wfObj (nativeBoolToBooleanObject b) = true := by
  cases b <;> rfl

theorem evalBang_wf (v : Option Obj) : wfObj (evalBangOperatorExpression v) = true := by
  rcases v with _ | o
  · rfl
  · rw [evalBangOperatorExpression]
    split_ifs <;> rfl

theorem evalMinus_wf (v : Option Obj) (st : St) (hst : wfSt st = true) :
    wfRes (evalMinusPrefixOperatorExpression v st).1 = true ∧
      wfSt (evalMinusPrefixOperatorExpression v st).2 = true := by
  rw [evalMinusPrefixOperatorExpression.eq_def]
  split
  · exact ⟨rfl, hst⟩
  · split_ifs
    · exact newError_wf _ _ hst
    · split
      · exact ⟨rfl, hst⟩
      · exact ⟨rfl, hst⟩

theorem evalPrefixExpression_wf (op : String) (v : Option Obj) (st : St)
    (hst : wfSt st = true) :
    wfRes (evalPrefixExpression op v st).1 = true ∧
      wfSt (evalPrefixExpression op v st).2 = true := by
  rw [evalPrefixExpression.eq_def]
  split_ifs
  · exact ⟨by simpa [wfRes, wfOpt] using evalBang_wf v, hst⟩
  · exact evalMinus_wf v st hst
  · split
    · exact ⟨rfl, hst⟩
    · exact newError_wf _ _ hst

theorem evalIntegerInfix_wf (op : String) (lo ro : Obj) (st : St)
    (hst : wfSt st = true) :
    wfRes (evalIntegerInfixExpression op lo ro st).1 = true ∧
      wfSt (evalIntegerInfixExpression op lo ro st).2 = true := by
  rw [evalIntegerInfixExpression.eq_def]
  split
  · split_ifs <;>
      first
        | exact ⟨rfl, hst⟩
        | exact ⟨by simpa [wfRes, wfOpt] using nativeBool_wf _, hst⟩
        | exact newError_wf _ _ hst
  · exact ⟨rfl, hst⟩

theorem evalStringInfix_wf (lo ro : Obj) (st : St) (hst : wfSt st = true) :
    wfRes (evalStringInfixExpression lo ro st).1 = true ∧
      wfSt (evalStringInfixExpression lo ro st).2 = true := by
  rw [evalStringInfixExpression.eq_def]
  split_ifs
  · exact newError_wf _ _ hst
  · split
    · exact ⟨rfl, hst⟩
    · exact ⟨rfl, hst⟩

theorem evalInfixExpression_wf (op : String) (l r : Option Obj) (st : St)
    (hst : wfSt st = true) :
    wfRes (evalInfixExpression op l r st).1 = true ∧
      wfSt (evalInfixExpression op l r st).2 = true := by
  rw [evalInfixExpression.eq_def]
  split
  · split_ifs
    · exact evalIntegerInfix_wf op _ _ st hst
    · exact evalStringInfix_wf _ _ st hst
    · exact ⟨by simpa [wfRes, wfOpt] using nativeBool_wf _, hst⟩
    · exact ⟨by simpa [wfRes, wfOpt] using nativeBool_wf _, hst⟩
    · exact newError_wf _ _ hst
    · exact newError_wf _ _ hst
  · exact ⟨rfl, hst⟩

end Golem

namespace Golem

theorem evalArrayIndex_wf (a i : Option Obj) (st : St) (ha : wfOpt a = true)
    (hst : wfSt st = true) :
    wfRes (evalArrayIndexExpression a i st).1 = true ∧
      wfSt (evalArrayIndexExpression a i st).2 = true := by
  rcases a with _ | o
  · exact ⟨rfl, hst⟩
  · cases o
    case arrayO r elements =>
      have he : wfOptList elements = true := by simpa [wfOpt, wfObj] using ha
      rcases i with _ | io
      · exact ⟨rfl, hst⟩
      · cases io
        case integer ri idx =>
          rw [evalArrayIndexExpression]
          split_ifs
          · exact ⟨rfl, hst⟩
          · exact ⟨by simpa [wfRes] using wfOptList_getD elements idx.toNat he, hst⟩
        all_goals exact ⟨rfl, hst⟩
    all_goals exact ⟨rfl, hst⟩

theorem pairsGet_wf (ps : List (HashKey × Option Obj × Option Obj)) (k : HashKey)
    (kv vv : Option Obj) (hp : wfPairs ps = true)
    (h : pairsGet ps k = some (kv, vv)) : wfOpt kv = true ∧ wfOpt vv = true := by
  induction ps with
  | nil => simp [pairsGet] at h
  | cons p rest ih =>
    rcases p with ⟨k2, kv2, vv2⟩
    rw [wfPairs] at hp
    rcases Bool.and_eq_true_iff.mp hp with ⟨hp1, h3⟩
    rcases Bool.and_eq_true_iff.mp hp1 with ⟨h1, h2⟩
    rw [pairsGet] at h
    by_cases hk : k2 = k
    · rw [if_pos hk] at h
      cases h
      exact ⟨h1, h2⟩
    · rw [if_neg hk] at h
      exact ih h3 h

theorem pairsSet_wf (ps : List (HashKey × Option Obj × Option Obj)) (k : HashKey)
    (p : Option Obj × Option Obj) (hp : wfPairs ps = true)
    (h1 : wfOpt p.1 = true) (h2 : wfOpt p.2 = true) :
    wfPairs (pairsSet ps k p) = true := by
  induction ps with
  | nil =>
    rw [pairsSet, wfPairs, h1, h2]
    rfl
  | cons q rest ih =>
    rcases q with ⟨k2, kv2, vv2⟩
    rw [wfPairs] at hp
    rcases Bool.and_eq_true_iff.mp hp with ⟨hp1, hq3⟩
    rcases Bool.and_eq_true_iff.mp hp1 with ⟨hq1, hq2⟩
    rw [pairsSet]
    by_cases hk : k2 = k
    · rw [if_pos hk, wfPairs, h1, h2, hq3]
      rfl
    · rw [if_neg hk, wfPairs, hq1, hq2, ih hq3]
      rfl

theorem evalHashIndex_wf (hobj i : Option Obj) (st : St) (hh : wfOpt hobj = true)
    (hst : wfSt st = true) :
    wfRes (evalHashIndexExpression hobj i st).1 = true ∧
      wfSt (evalHashIndexExpression hobj i st).2 = true := by
  rcases hobj with _ | o
  · exact ⟨rfl, hst⟩
  · cases o
    case hashO r pairs =>
      have hps : wfPairs pairs = true := by simpa [wfOpt, wfObj] using hh
      rcases i with _ | io
      · exact ⟨rfl, hst⟩
      · rw [evalHashIndexExpression]
        rcases hko : hashKeyOfObj io with _ | k
        · exact newError_wf _ _ hst
        · dsimp only
          rcases hget : pairsGet pairs k with _ | ⟨kv, vv⟩
          · exact ⟨rfl, hst⟩
          · exact ⟨by simpa [wfRes] using (pairsGet_wf pairs k kv vv hps hget).2, hst⟩
    all_goals exact ⟨rfl, hst⟩

theorem evalIndexExpression_wf (l i : Option Obj) (st : St) (hl : wfOpt l = true)
    (hst : wfSt st = true) :
    wfRes (evalIndexExpression l i st).1 = true ∧
      wfSt (evalIndexExpression l i st).2 = true := by
  rcases l with _ | o
  · exact ⟨rfl, hst⟩
  · rw [evalIndexExpression]
    split_ifs
    · exact evalArrayIndex_wf (some o) i st hl hst
    · exact evalHashIndex_wf (some o) i st hl hst
    · exact newError_wf _ _ hst

theorem unwrapReturnValue_wf (v : Option Obj) (h : wfOpt v = true) :
    wfOpt (unwrapReturnValue v) = true := by
  rcases v with _ | o
  · exact h
  · cases o
    case returnValue r inner => simpa [wfOpt, wfObj, unwrapReturnValue] using h
    all_goals exact h

theorem builtins_wf (name : String) (b : Obj) (h : builtins name = some b) :
    wfObj b = true := by
  rw [builtins] at h
  split_ifs at h <;> simp at h <;> subst h <;> rfl

theorem bindParams_wf (params : List String) (idx : Nat) (args : List (Option Obj))
    (envRef : Nat) (st : St) (hst : wfSt st = true) (hargs : wfOptList args = true) :
    wfSt (bindParams params idx args envRef st).2 = true := by
  induction params generalizing idx st with
  | nil => exact hst
  | cons p rest ih =>
    rw [bindParams]
    split_ifs
    · exact ih _ _ (envSet_wf st envRef p _ hst (wfOptList_getD args idx hargs))
    · exact hst

theorem extendFunctionEnv_wf (params : List String) (fnEnv : Nat)
    (args : List (Option Obj)) (st : St) (hst : wfSt st = true)
    (hargs : wfOptList args = true) :
    wfSt (extendFunctionEnv params fnEnv args st).2 = true := by
  rw [extendFunctionEnv]
  exact bindParams_wf _ _ _ _ _ (newEnvironment_wf st (some fnEnv) hst) hargs

end Golem

namespace Golem

theorem applyBuiltin_wf (name : String) (args : List (Option Obj)) (st : St)
    (hargs : wfOptList args = true) (hst : wfSt st = true) :
    wfRes (applyBuiltin name args st).1 = true ∧
      wfSt (applyBuiltin name args st).2 = true := by
  have h0 : wfOpt (args.getD 0 none) = true := wfOptList_getD args 0 hargs
  have h1 : wfOpt (args.getD 1 none) = true := wfOptList_getD args 1 hargs
  rw [applyBuiltin.eq_def]
  split_ifs
  all_goals try exact ⟨rfl, hst⟩
  all_goals try exact newError_wf _ _ hst
  all_goals split
  all_goals try exact ⟨rfl, hst⟩
  all_goals try exact newError_wf _ _ hst
  all_goals rename_i harg
  all_goals rw [harg] at h0
  all_goals try split_ifs
  all_goals try exact ⟨rfl, hst⟩
  all_goals try exact newError_wf _ _ hst
  all_goals try split
  all_goals try exact ⟨rfl, hst⟩
  all_goals try split_ifs
  all_goals try exact ⟨rfl, hst⟩
  all_goals
    first
      | exact ⟨by
          simpa [wfRes] using
            wfOptList_getD _ _ (by simpa [wfOpt, wfObj] using h0), hst⟩
      | exact ⟨by
          simpa [wfRes, wfOpt, wfObj] using
            wfOptList_drop _ 1 (by simpa [wfOpt, wfObj] using h0), hst⟩
      | exact ⟨by
          simpa [wfRes, wfOpt, wfObj] using
            wfOptList_append _ [args.getD 1 none]
              (by simpa [wfOpt, wfObj] using h0)
              (by simpa [wfOptList] using h1), hst⟩

end Golem

namespace Golem

theorem evalGolem_wf (fuel : Nat) :
    (∀ (e : Expr) (env : Nat) (st : St), wfSt st = true →
      wfRes (evalExpr fuel e env st).1 = true ∧ wfSt (evalExpr fuel e env st).2 = true) ∧
    (∀ (pairEs : List (Expr × Expr)) (acc : List (HashKey × Option Obj × Option Obj))
        (env : Nat) (st : St), wfSt st = true → wfPairs acc = true →
      wfRes (evalHashPairs fuel pairEs acc env st).1 = true ∧
        wfSt (evalHashPairs fuel pairEs acc env st).2 = true) ∧
    (∀ (es : List Expr) (env : Nat) (st : St), wfSt st = true →
      wfListRes (evalExpressions fuel es env st).1 = true ∧
        wfSt (evalExpressions fuel es env st).2 = true) ∧
    (∀ (s : Stmt) (env : Nat) (st : St), wfSt st = true →
      wfRes (evalStmt fuel s env st).1 = true ∧ wfSt (evalStmt fuel s env st).2 = true) ∧
    (∀ (stmts : List Stmt) (env : Nat) (st : St), wfSt st = true →
      wfRes (evalBlockStatement fuel stmts env st).1 = true ∧
        wfSt (evalBlockStatement fuel stmts env st).2 = true) ∧
    (∀ (stmts : List Stmt) (env : Nat) (st : St), wfSt st = true →
      wfRes (evalProgram fuel stmts env st).1 = true ∧
        wfSt (evalProgram fuel stmts env st).2 = true) ∧
    (∀ (fn : Option Obj) (args : List (Option Obj)) (env : Nat) (st : St),
        wfSt st = true → wfOpt fn = true → wfOptList args = true →
      wfRes (applyFunction fuel fn args env st).1 = true ∧
        wfSt (applyFunction fuel fn args env st).2 = true) := by
  induction fuel with
  | zero =>
    refine ⟨fun e env st hst => ⟨rfl, hst⟩, fun p a env st hst _ => ⟨rfl, hst⟩,
      fun es env st hst => ⟨rfl, hst⟩, fun s env st hst => ⟨rfl, hst⟩,
      fun b env st hst => ⟨rfl, hst⟩, fun b env st hst => ⟨rfl, hst⟩,
      fun fn a env st hst _ _ => ⟨rfl, hst⟩⟩
  | succ fuel ih =>
    obtain ⟨ihE, ihH, ihX, ihS, ihB, ihP, ihA⟩ := ih
    refine ⟨?_, ?_, ?_, ?_, ?_, ?_, ?_⟩
    · -- evalExpr
      intro e env st hst
      cases e with
      | integerLiteral v => exact ⟨rfl, hst⟩
      | stringLiteral s => exact ⟨rfl, hst⟩
      | booleanLit b =>
        exact ⟨by simpa [wfRes, wfOpt] using nativeBool_wf b, hst⟩
      | identifier name =>
        rw [evalExpr]
        rcases hg : envGet st env name with _ | v
        · rcases hb : builtins name with _ | b
          · exact newError_wf _ _ hst
          · exact ⟨by simpa [wfRes, wfOpt] using builtins_wf name b hb, hst⟩
        · exact ⟨by simpa [wfRes] using envGet_wf st env name v hst hg, hst⟩
      | prefixExpression op right =>
        rw [evalExpr]
        rcases hsub : evalExpr fuel right env st with ⟨r, st2⟩
        have hs := ihE right env st hst
        rw [hsub] at hs
        obtain ⟨hr, hst2⟩ := hs
        rcases r with v | k | _
        · dsimp only
          split_ifs
          · exact ⟨hr, hst2⟩
          · exact evalPrefixExpression_wf op v st2 hst2
        · exact ⟨rfl, hst2⟩
        · exact ⟨rfl, hst2⟩
      | infixExpression op l r =>
        rw [evalExpr]
        rcases hsub : evalExpr fuel l env st with ⟨r1, st2⟩
        have hs := ihE l env st hst
        rw [hsub] at hs
        obtain ⟨hr1, hst2⟩ := hs
        rcases r1 with v1 | k | _
        · dsimp only
          split_ifs
          · exact ⟨hr1, hst2⟩
          · rcases hsub2 : evalExpr fuel r env st2 with ⟨r2, st3⟩
            have hs2 := ihE r env st2 hst2
            rw [hsub2] at hs2
            obtain ⟨hr2, hst3⟩ := hs2
            rcases r2 with v2 | k | _
            · dsimp only
              split_ifs
              · exact ⟨hr2, hst3⟩
              · exact evalInfixExpression_wf op v1 v2 st3 hst3
            · exact ⟨rfl, hst3⟩
            · exact ⟨rfl, hst3⟩
        · exact ⟨rfl, hst2⟩
        · exact ⟨rfl, hst2⟩
      | ifExpression cond cons alt =>
        rw [evalExpr]
        rcases hsub : evalExpr fuel cond env st with ⟨r, st2⟩
        have hs := ihE cond env st hst
        rw [hsub] at hs
        obtain ⟨hr, hst2⟩ := hs
        rcases r with v | k | _
        · dsimp only
          split_ifs
          · exact ⟨hr, hst2⟩
          · exact ihB cons env st2 hst2
          · rcases alt with _ | b
            · exact ⟨rfl, hst2⟩
            · exact ihB b env st2 hst2
        · exact ⟨rfl, hst2⟩
        · exact ⟨rfl, hst2⟩
      | functionLiteral params body => exact ⟨rfl, hst⟩
      | callExpression f argEs =>
        rw [evalExpr]
        rcases hsub : evalExpr fuel f env st with ⟨r, st2⟩
        have hs := ihE f env st hst
        rw [hsub] at hs
        obtain ⟨hr, hst2⟩ := hs
        rcases r with v | k | _
        · dsimp only
          split_ifs
          · exact ⟨hr, hst2⟩
          · rcases hargs : evalExpressions fuel argEs env st2 with ⟨ra, st3⟩
            have hs2 := ihX argEs env st2 hst2
            rw [hargs] at hs2
            obtain ⟨hra, hst3⟩ := hs2
            rcases ra with vs | k | _
            · dsimp only
              split_ifs
              · exact ⟨by simpa [wfRes] using wfOptList_getD vs 0 hra, hst3⟩
              · exact ihA v vs env st3 hst3 hr hra
            · exact ⟨rfl, hst3⟩
            · exact ⟨rfl, hst3⟩
        · exact ⟨rfl, hst2⟩
        · exact ⟨rfl, hst2⟩
      | arrayLiteral elemEs =>
        rw [evalExpr]
        rcases hargs : evalExpressions fuel elemEs env st with ⟨ra, st2⟩
        have hs := ihX elemEs env st hst
        rw [hargs] at hs
        obtain ⟨hra, hst2⟩ := hs
        rcases ra with vs | k | _
        · dsimp only
          split_ifs
          · exact ⟨by simpa [wfRes] using wfOptList_getD vs 0 hra, hst2⟩
          · exact ⟨by simpa [wfRes, wfOpt, wfObj] using hra, hst2⟩
        · exact ⟨rfl, hst2⟩
        · exact ⟨rfl, hst2⟩
      | indexExpression l idx =>
        rw [evalExpr]
        rcases hsub : evalExpr fuel l env st with ⟨r1, st2⟩
        have hs := ihE l env st hst
        rw [hsub] at hs
        obtain ⟨hr1, hst2⟩ := hs
        rcases r1 with v1 | k | _
        · dsimp only
          split_ifs
          · exact ⟨hr1, hst2⟩
          · rcases hsub2 : evalExpr fuel idx env st2 with ⟨r2, st3⟩
            have hs2 := ihE idx env st2 hst2
            rw [hsub2] at hs2
            obtain ⟨hr2, hst3⟩ := hs2
            rcases r2 with v2 | k | _
            · dsimp only
              split_ifs
              · exact ⟨hr2, hst3⟩
              · exact evalIndexExpression_wf v1 v2 st3 (by simpa [wfRes] using hr1) hst3
            · exact ⟨rfl, hst3⟩
            · exact ⟨rfl, hst3⟩
        · exact ⟨rfl, hst2⟩
        · exact ⟨rfl, hst2⟩
      | hashLiteral pairEs =>
        rw [evalExpr]
        exact ihH pairEs [] env st hst rfl
    · -- evalHashPairs
      intro pairEs acc env st hst hacc
      cases pairEs with
      | nil =>
        exact ⟨by simpa [evalHashPairs, wfRes, wfOpt, wfObj] using hacc, hst⟩
      | cons p rest =>
        rcases p with ⟨kE, vE⟩
        rw [evalHashPairs]
        rcases hsub : evalExpr fuel kE env st with ⟨r, st2⟩
        have hs := ihE kE env st hst
        rw [hsub] at hs
        obtain ⟨hr, hst2⟩ := hs
        rcases r with v | k | _
        · dsimp only
          split_ifs
          · exact ⟨hr, hst2⟩
          · rcases v with _ | ko
            · exact ⟨rfl, hst2⟩
            · dsimp only
              rcases hko : hashKeyOfObj ko with _ | hk
              · exact newError_wf _ _ hst2
              · dsimp only
                rcases hsub2 : evalExpr fuel vE env st2 with ⟨r2, st3⟩
                have hs2 := ihE vE env st2 hst2
                rw [hsub2] at hs2
                obtain ⟨hr2, hst3⟩ := hs2
                rcases r2 with v2 | k | _
                · dsimp only
                  split_ifs
                  · exact ⟨hr2, hst3⟩
                  · refine ihH rest _ env st3 hst3 ?_
                    exact pairsSet_wf acc hk (some ko, v2) hacc
                      (by simpa [wfOpt] using hr) (by simpa [wfRes] using hr2)
                · exact ⟨rfl, hst3⟩
                · exact ⟨rfl, hst3⟩
        · exact ⟨rfl, hst2⟩
        · exact ⟨rfl, hst2⟩
    · -- evalExpressions
      intro es env st hst
      cases es with
      | nil => exact ⟨rfl, hst⟩
      | cons e rest =>
        rw [evalExpressions]
        rcases hsub : evalExpr fuel e env st with ⟨r, st2⟩
        have hs := ihE e env st hst
        rw [hsub] at hs
        obtain ⟨hr, hst2⟩ := hs
        rcases r with v | k | _
        · dsimp only
          split_ifs
          · exact ⟨by simpa [wfListRes, wfOptList, wfRes] using hr, hst2⟩
          · rcases hrest : evalExpressions fuel rest env st2 with ⟨ra, st3⟩
            have hs2 := ihX rest env st2 hst2
            rw [hrest] at hs2
            obtain ⟨hra, hst3⟩ := hs2
            rcases ra with vs | k | _
            · refine ⟨?_, hst3⟩
              rw [wfListRes, wfOptList]
              rw [wfRes] at hr
              rw [wfListRes] at hra
              rw [hr, hra]
              rfl
            · exact ⟨rfl, hst3⟩
            · exact ⟨rfl, hst3⟩
        · exact ⟨rfl, hst2⟩
        · exact ⟨rfl, hst2⟩
    · -- evalStmt
      intro s env st hst
      cases s with
      | expressionStatement e =>
        rw [evalStmt]
        exact ihE e env st hst
      | blockStatement stmts =>
        rw [evalStmt]
        exact ihB stmts env st hst
      | returnStatement oe =>
        rcases oe with _ | e
        · exact ⟨rfl, hst⟩
        · rw [evalStmt]
          rcases hsub : evalExpr fuel e env st with ⟨r, st2⟩
          have hs := ihE e env st hst
          rw [hsub] at hs
          obtain ⟨hr, hst2⟩ := hs
          rcases r with v | k | _
          · dsimp only
            split_ifs
            · exact ⟨hr, hst2⟩
            · exact ⟨by simpa [wfRes, wfOpt, wfObj] using hr, hst2⟩
          · exact ⟨rfl, hst2⟩
          · exact ⟨rfl, hst2⟩
      | letStatement name e =>
        rw [evalStmt]
        rcases hsub : evalExpr fuel e env st with ⟨r, st2⟩
        have hs := ihE e env st hst
        rw [hsub] at hs
        obtain ⟨hr, hst2⟩ := hs
        rcases r with v | k | _
        · dsimp only
          split_ifs
          · exact ⟨hr, hst2⟩
          · exact ⟨rfl, envSet_wf st2 env name v hst2 (by simpa [wfRes] using hr)⟩
        · exact ⟨rfl, hst2⟩
        · exact ⟨rfl, hst2⟩
    · -- evalBlockStatement
      intro stmts env st hst
      cases stmts with
      | nil => exact ⟨rfl, hst⟩
      | cons s rest =>
        rw [evalBlockStatement]
        rcases hsub : evalStmt fuel s env st with ⟨r, st2⟩
        have hs := ihS s env st hst
        rw [hsub] at hs
        obtain ⟨hr, hst2⟩ := hs
        rcases r with v | k | _
        · rcases v with _ | o
          · dsimp only
            split_ifs
            · exact ⟨rfl, hst2⟩
            · exact ihB rest env st2 hst2
          · dsimp only
            split_ifs
            · exact ⟨hr, hst2⟩
            · exact ⟨hr, hst2⟩
            · exact ihB rest env st2 hst2
        · exact ⟨rfl, hst2⟩
        · exact ⟨rfl, hst2⟩
    · -- evalProgram
      intro stmts env st hst
      cases stmts with
      | nil => exact ⟨rfl, hst⟩
      | cons s rest =>
        rw [evalProgram]
        rcases hsub : evalStmt fuel s env st with ⟨r, st2⟩
        have hs := ihS s env st hst
        rw [hsub] at hs
        obtain ⟨hr, hst2⟩ := hs
        rcases r with v | k | _
        · rcases v with _ | o
          · dsimp only
            split_ifs
            · exact ⟨rfl, hst2⟩
            · exact ihP rest env st2 hst2
          · cases o
            case returnValue rr inner =>
              exact ⟨by simpa [wfRes, wfOpt, wfObj] using hr, hst2⟩
            case errorO rr mm => exact ⟨rfl, hst2⟩
            all_goals
              (dsimp only
               split_ifs
               · exact ⟨hr, hst2⟩
               · exact ihP rest env st2 hst2)
        · exact ⟨rfl, hst2⟩
        · exact ⟨rfl, hst2⟩
    · -- applyFunction
      intro fn args env st hst hfn hargs
      rcases fn with _ | o
      · exact ⟨rfl, hst⟩
      · cases o
        case functionO fr params body fnEnv =>
          rw [applyFunction]
          rcases hext : extendFunctionEnv params fnEnv args st with ⟨exr, st2⟩
          have hst2 : wfSt st2 = true := by
            have := extendFunctionEnv_wf params fnEnv args st hst hargs
            rw [hext] at this
            exact this
          rcases exr with k | eref
          · exact ⟨rfl, hst2⟩
          · dsimp only
            rcases hbody : evalBlockStatement fuel body env st2 with ⟨rb, st3⟩
            have hs := ihB body env st2 hst2
            rw [hbody] at hs
            obtain ⟨hrb, hst3⟩ := hs
            rcases rb with v | k | _
            · exact ⟨by
                simpa [wfRes] using unwrapReturnValue_wf v (by simpa [wfRes] using hrb),
                hst3⟩
            · exact ⟨rfl, hst3⟩
            · exact ⟨rfl, hst3⟩
        case builtinO br bn =>
          rw [applyFunction]
          exact applyBuiltin_wf bn args st hargs hst
        all_goals
          (rw [applyFunction.eq_def]
           dsimp only
           exact newError_wf _ _ hst)

end Golem

namespace Golem

/-- C10: starting from the interpreter's initial state, every program
evaluation yields a result and a final environment state in which every
Boolean object is one of the two shared singletons (TRUE at address 0,
FALSE at address 1) and every Null is the shared NULL singleton (address
2) — the invariant is preserved by every evaluation step, by induction
over the evaluator — and on Boolean/Null operands satisfying it, the
identity comparison `goEq` used by the `==`/`!=` fallback coincides with
value equality. -/
theorem singleton_invariant :
    (∀ (stmts : List Stmt) (fuel : Nat),
      wfRes (evalProgram fuel stmts rootEnv initialSt).1 = true ∧
        wfSt (evalProgram fuel stmts rootEnv initialSt).2 = true) ∧
    (∀ o1 o2 : Obj, wfObj o1 = true → wfObj o2 = true →
      boolOrNull o1 = true → boolOrNull o2 = true →
      (goEq o1 o2 = true ↔ o1 = o2)) := by
  constructor
  · intro stmts fuel
    exact (evalGolem_wf fuel).2.2.2.2.2.1 stmts rootEnv initialSt (by decide)
  · intro o1 o2 h1 h2 hb1 hb2
    cases o1 <;> cases o2 <;>
      simp_all [boolOrNull, objType, goEq, refOf, wfObj] <;>
      try omega
    rintro rfl
    rcases h1 with ⟨hr1, hv1⟩ | ⟨hr1, hv1⟩ <;> rcases h2 with ⟨hr2, hv2⟩ | ⟨hr2, hv2⟩ <;>
      simp_all

/-- Witness for C10: TRUE and FALSE are well-formed Boolean singletons,
and the identity comparison correctly distinguishes them and correctly
identifies TRUE with itself. -/
theorem singleton_invariant_witness :
    (goEq TRUE FALSE = true ↔ TRUE = FALSE) ∧ (goEq TRUE TRUE = true ↔ TRUE = TRUE) :=
  ⟨singleton_invariant.2 TRUE FALSE (by decide) (by decide) (by decide) (by decide),
   singleton_invariant.2 TRUE TRUE (by decide) (by decide) (by decide) (by decide)⟩

end Golem

namespace Golem

/-- C4 (counterexample): a top-level `return 5;` aborts the program's
remaining statements, but the ReturnValue signal is not returned as-is
from the Program: `evalProgram` unwraps it into the carried Integer(5) —
so unwrapping does not happen exclusively at the function-application
boundary. -/
theorem program_return_unwrap_counterexample :
    resultIsInt (evalProgram 100 topReturnProgram rootEnv initialSt).1 5 = true ∧
    resIsReturn (evalProgram 100 topReturnProgram rootEnv initialSt).1 = false :=
  ⟨by decide, by decide⟩

end Golem
